import Mathlib

/-!
Verification of the django-entity synchronization core.

Shallow embedding of `entity/sync.py`, `entity/config.py` and
`entity/models.py` (ambitioninc/django-entity).  Content types and model
primary keys are natural numbers; Python dicts are association lists with
insert-or-overwrite-in-place semantics (matching dict insertion order);
Python sets are duplicate-free lists in insertion order; database errors
and Python exceptions are modelled with `Except`.
-/

set_option autoImplicit false

namespace DjangoEntity

/-- Association-list lookup (first binding wins, like a Python dict which
never holds duplicate keys). -/
def assocFind {α β : Type} [DecidableEq α] (k : α) : List (α × β) → Option β
  | [] => none
  | (k2, v) :: rest => if k2 = k then some v else assocFind k rest

/-- Association-list lookup with a default value. -/
def assocGetD {α β : Type} [DecidableEq α] (l : List (α × β)) (k : α) (d : β) : β :=
  (assocFind k l).getD d

/-- `d[k] = v` on a Python dict: overwrite in place if the key exists
(keeping its position, as Python dicts do), otherwise append. -/
def assocUpsert {α β : Type} [DecidableEq α] : List (α × β) → α → β → List (α × β)
  | [], k, v => [(k, v)]
  | (k2, v2) :: rest, k, v =>
    if k2 = k then (k2, v) :: rest else (k2, v2) :: assocUpsert rest k v

/-- `s.add(x)` on a Python set, kept in insertion order. -/
def setAdd {α : Type} [DecidableEq α] (l : List α) (x : α) : List α :=
  if x ∈ l then l else l ++ [x]

/-- Insert a number into a sorted list (helper for `sorted(...)`). -/
def insertSorted (x : Nat) : List Nat → List Nat
  | [] => [x]
  | y :: rest => if x ≤ y then x :: y :: rest else y :: insertSorted x rest

/-- `sorted(list(...))` on a list of ids. -/
def sortNats (l : List Nat) : List Nat :=
  l.foldr insertSorted []

@[simp] theorem assocFind_nil {α β : Type} [DecidableEq α] (k : α) :
    assocFind (β := β) k [] = none := rfl

@[simp] theorem assocFind_cons {α β : Type} [DecidableEq α] (k k2 : α) (v : β)
    (rest : List (α × β)) :
    assocFind k ((k2, v) :: rest) = if k2 = k then some v else assocFind k rest := rfl

theorem assocFind_upsert_self {α β : Type} [DecidableEq α]
    (l : List (α × β)) (k : α) (v : β) : assocFind k (assocUpsert l k v) = some v := by
  induction l with
  | nil => simp [assocUpsert]
  | cons hd tl ih =>
    obtain ⟨k2, v2⟩ := hd
    by_cases h : k2 = k <;> simp [assocUpsert, h, ih]

theorem assocFind_upsert_other {α β : Type} [DecidableEq α]
    (l : List (α × β)) (k k2 : α) (v : β) (h : k2 ≠ k) :
    assocFind k2 (assocUpsert l k v) = assocFind k2 l := by
  induction l with
  | nil => simp [assocUpsert, Ne.symm h]
  | cons hd tl ih =>
    obtain ⟨k3, v3⟩ := hd
    by_cases h3 : k3 = k
    · subst h3
      simp [assocUpsert, Ne.symm h]
    · simp only [assocUpsert, if_neg h3]
      by_cases h4 : k3 = k2
      · simp [assocFind, h4]
      · simp [assocFind, h4, ih]

theorem mem_setAdd_self {α : Type} [DecidableEq α] (l : List α) (x : α) :
    x ∈ setAdd l x := by
  by_cases h : x ∈ l <;> simp [setAdd, h]

theorem mem_setAdd_of_mem {α : Type} [DecidableEq α] {l : List α} {y : α} (x : α)
    (h : y ∈ l) : y ∈ setAdd l x := by
  by_cases h2 : x ∈ l <;> simp [setAdd, h2, h]

theorem mem_setAdd_iff {α : Type} [DecidableEq α] {l : List α} {x y : α} :
    y ∈ setAdd l x ↔ y = x ∨ y ∈ l := by
  by_cases h : x ∈ l
  · simp only [setAdd, if_pos h]
    constructor
    · exact fun h2 => Or.inr h2
    · rintro (rfl | h2) <;> [exact h; exact h2]
  · simp only [setAdd, if_neg h, List.mem_append, List.mem_singleton]
    tauto

/-!
## Retry wrapper (`transaction_atomic_with_retry`, sync.py lines 24-56)

One call attempt of the wrapped phase is all-or-nothing (it runs inside
`transaction.atomic()`): it either returns a value, raises a
`django.db.utils.OperationalError`, or raises some other exception.
The error payloads are abstract numeric codes.
-/

/-- Outcome of one attempt of a wrapped database phase. -/
inductive AttemptResult (α : Type) where
  | ok (a : α)
  | opError (code : Nat)
  | otherError (code : Nat)
  deriving DecidableEq

/-- The exception that escapes `transaction_atomic_with_retry`. -/
inductive RaisedError where
  | opError (code : Nat)
  | otherError (code : Nat)
  deriving DecidableEq

/-- The `while num_tries <= num_retries` loop of the decorator, with fuel
`num_retries + 1 - num_tries`.  `lastExc` is the `exception` variable;
the accumulated list records every `sleep(backoff * num_tries)` duration
in order. -/
def retryGo {α : Type} (attempts : Nat → AttemptResult α) (backoff : ℚ) :
    Nat → Nat → Option Nat → List ℚ → Except RaisedError α × List ℚ
  | 0, _, lastExc, sleeps => (Except.error (RaisedError.opError (lastExc.getD 0)), sleeps)
  | fuel + 1, numTries, _, sleeps =>
    match attempts numTries with
    | AttemptResult.ok a => (Except.ok a, sleeps)
    | AttemptResult.opError e =>
      retryGo attempts backoff fuel (numTries + 1) (some e)
        (sleeps ++ [backoff * ((numTries : ℚ) + 1)])
    | AttemptResult.otherError e => (Except.error (RaisedError.otherError e), sleeps)

/-- `transaction_atomic_with_retry(num_retries, backoff)` applied to a body
whose `k`-th execution gives `attempts k`.  Returns the final outcome and
the list of sleep durations performed. -/
def transactionAtomicWithRetry {α : Type} (numRetries : Nat) (backoff : ℚ)
    (attempts : Nat → AttemptResult α) : Except RaisedError α × List ℚ :=
  retryGo attempts backoff (numRetries + 1) 0 none []

/-- Default `num_retries=5` used at all three decoration sites
(`upsert_entity_kinds`, `upsert_entities`, `upsert_entity_relationships`
are each decorated with bare `@transaction_atomic_with_retry()`). -/
def syncNumRetries : Nat := 5

/-- Default `backoff=0.1` (seconds) used at all three decoration sites. -/
def syncBackoff : ℚ := 1 / 10

/-- C4: each upsert phase (kind upsert, entity upsert, relationship upsert) is
decorated with `@transaction_atomic_with_retry()` so each call runs as its own
atomic transaction attempt and is retried up to 5 times on a transient
`OperationalError`, sleeping `attempt_number * 0.1` seconds (linear backoff)
before each retry; any other exception propagates immediately with no retry
and no sleep; when the retries are exhausted the last database error is
raised unwrapped. -/
theorem transaction_atomic_with_retry_policy :
    (∀ (c : Nat → Nat),
      transactionAtomicWithRetry (α := Nat) syncNumRetries syncBackoff
          (fun k => AttemptResult.opError (c k)) =
        (Except.error (RaisedError.opError (c 5)),
          [syncBackoff * 1, syncBackoff * 2, syncBackoff * 3, syncBackoff * 4,
            syncBackoff * 5, syncBackoff * 6])) ∧
    (∀ (attempts : Nat → AttemptResult Nat) (c : Nat → Nat) (a : Nat) (k : Nat),
      k ≤ 5 → (∀ j, j < k → attempts j = AttemptResult.opError (c j)) →
      attempts k = AttemptResult.ok a →
      transactionAtomicWithRetry syncNumRetries syncBackoff attempts =
        (Except.ok a, (List.range k).map (fun j => syncBackoff * ((j : ℚ) + 1)))) ∧
    (∀ (attempts : Nat → AttemptResult Nat) (c : Nat → Nat) (e : Nat) (k : Nat),
      k ≤ 5 → (∀ j, j < k → attempts j = AttemptResult.opError (c j)) →
      attempts k = AttemptResult.otherError e →
      transactionAtomicWithRetry syncNumRetries syncBackoff attempts =
        (Except.error (RaisedError.otherError e),
          (List.range k).map (fun j => syncBackoff * ((j : ℚ) + 1)))) := by
  refine ⟨?_, ?_, ?_⟩
  · intro c
    simp [transactionAtomicWithRetry, syncNumRetries, retryGo]
    norm_num
  · intro attempts c a k hk hop hok
    interval_cases k <;>
      simp [transactionAtomicWithRetry, syncNumRetries, retryGo, List.range_succ,
        hok, hop]
  · intro attempts c e k hk hop hother
    interval_cases k <;>
      simp [transactionAtomicWithRetry, syncNumRetries, retryGo, List.range_succ,
        hother, hop]

/-- Witness for C4: one transient failure then success — the call is retried
once after a 0.1 s sleep and returns the wrapped value; retries stop. -/
theorem transaction_atomic_with_retry_policy_witness :
    transactionAtomicWithRetry syncNumRetries syncBackoff
        (fun k => if k = 0 then AttemptResult.opError 3 else AttemptResult.ok 7) =
      (Except.ok 7, [syncBackoff * 1]) := by
  have h := transaction_atomic_with_retry_policy.2.1
    (fun k => if k = 0 then AttemptResult.opError 3 else AttemptResult.ok 7)
    (fun _ => 3) 7 1 (by norm_num)
    (by intro j hj; interval_cases j; simp)
    (by simp)
  simpa [List.range_succ] using h

/-!
## `sync_entities_watching` (sync.py lines 225-232)
-/

/-- A source model object as far as the watcher mechanism is concerned:
model class, primary key and a payload distinguishing versions. -/
structure BObj where
  cls : Nat
  pk : Nat
  data : Nat
  deriving DecidableEq

/-- `sync_entities_watching(instance)`: iterate the watcher registrations
for the instance's class; each extractor yields the model objects to sync;
a sync is triggered only when the extractor returned a non-empty list.
The result is the list of argument lists of the `sync_entities` calls
actually made, in order. -/
def syncEntitiesWatching (watching : List (Nat → List BObj)) (inst : Nat) :
    List (List BObj) :=
  match watching with
  | [] => []
  | getter :: rest =>
    let modelObjs := getter inst
    if modelObjs.isEmpty then syncEntitiesWatching rest inst
    else modelObjs :: syncEntitiesWatching rest inst

/-- C10: for every instance whose registered watcher extractor functions each
return an empty iterable, `sync_entities_watching` performs no sync at all; in
particular it never makes a zero-argument `sync_entities` call (which would
trigger a full sync). -/
theorem sync_entities_watching_no_empty_sync
    (watching : List (Nat → List BObj)) (inst : Nat)
    (h : ∀ g ∈ watching, g inst = []) :
    syncEntitiesWatching watching inst = [] ∧
      ∀ (watching2 : List (Nat → List BObj)) (inst2 : Nat),
        [] ∉ syncEntitiesWatching watching2 inst2 := by
  constructor
  · induction watching with
    | nil => rfl
    | cons g rest ih =>
      have hg : g inst = [] := h g (by simp)
      have hrest := ih (fun g2 hg2 => h g2 (by simp [hg2]))
      simp [syncEntitiesWatching, hg, hrest]
  · intro watching2 inst2
    induction watching2 with
    | nil => simp [syncEntitiesWatching]
    | cons g rest ih =>
      by_cases hg : (g inst2).isEmpty
      · simp [syncEntitiesWatching, hg, ih]
      · simp only [syncEntitiesWatching, if_neg hg, List.mem_cons]
        rintro (h2 | h2)
        · rw [← h2] at hg
          simp at hg
        · exact ih h2

/-- Witness for C10: one watcher whose extractor returns nothing on
instance 3 triggers no sync call. -/
theorem sync_entities_watching_no_empty_sync_witness :
    syncEntitiesWatching [fun _ => []] 3 = [] :=
  (sync_entities_watching_no_empty_sync [fun _ => []] 3
    (by intro g hg; simp at hg; simp [hg])).1

/-!
## Deferred and suppressed syncing (`defer_entity_syncing`, sync.py lines
59-92, and `sync_entities`, sync.py lines 189-222)
-/

/-- A key of `sync_entities.buffer`: `none` is the `None` marker meaning
"a full sync was requested", otherwise the `(model class, pk)` pair. -/
abbrev BufKey := Option (Nat × Nat)

/-- The module-level state attached to `sync_entities` (`defer`, `suppress`
and `buffer` attributes), together with a log of the `EntitySyncer(...)
.sync()` runs actually executed: each log entry is the argument list of one
executed call, `[]` meaning a zero-argument (full) sync. -/
structure SyncCallState where
  defer : Bool
  suppress : Bool
  buffer : List (BufKey × Option BObj)
  executed : List (List BObj)
  deriving DecidableEq

/-- The initial module state: `sync_entities.defer = False`,
`sync_entities.buffer = {}`, `sync_entities.suppress = False`. -/
def initSyncCallState : SyncCallState :=
  { defer := false, suppress := false, buffer := [], executed := [] }

/-- Buffer every object of one call under its `(class, pk)` key
(sync.py lines 206-208). -/
def bufferObjs (b : List (BufKey × Option BObj)) (modelObjs : List BObj) :
    List (BufKey × Option BObj) :=
  modelObjs.foldl (fun b2 o => assocUpsert b2 (some (o.cls, o.pk)) (some o)) b

/-- `sync_entities(*model_objs)`: a suppressed call does nothing; while
deferring, a zero-argument call stores the `None` marker and a non-empty call
buffers each object; otherwise `EntitySyncer(*model_objs).sync()` runs. -/
def syncEntitiesCall (s : SyncCallState) (modelObjs : List BObj) : SyncCallState :=
  if s.suppress then s
  else if s.defer then
    if modelObjs.isEmpty then { s with buffer := assocUpsert s.buffer none none }
    else { s with buffer := bufferObjs s.buffer modelObjs }
  else { s with executed := s.executed ++ [modelObjs] }

/-- `defer_entity_syncing` wrapping a method whose body performs the
`sync_entities` calls `calls` in order: set `defer`, run the body, then in
the `finally` block reset `defer`, take the buffered values (or an empty
argument list if the `None` marker is present), call `sync_entities` once if
the buffer is non-empty, and clear the buffer. -/
def deferEntitySyncing (calls : List (List BObj)) (s : SyncCallState) :
    SyncCallState :=
  let s1 := calls.foldl syncEntitiesCall { s with defer := true }
  let s2 := { s1 with defer := false }
  let modelObjs0 := s2.buffer.filterMap (fun e => e.2)
  let modelObjs := if s2.buffer.any (fun e => e.1 = none) then [] else modelObjs0
  let s3 := if s2.buffer.isEmpty then s2 else syncEntitiesCall s2 modelObjs
  { s3 with buffer := [] }

/-- The `(model class, pk)` keys of a list of model objects. -/
def keysOf (l : List BObj) : List (Nat × Nat) :=
  l.map (fun o => (o.cls, o.pk))

theorem mem_keys_assocUpsert {α β : Type} [DecidableEq α]
    (l : List (α × β)) (k k2 : α) (v : β) :
    k2 ∈ (assocUpsert l k v).map Prod.fst ↔ k2 = k ∨ k2 ∈ l.map Prod.fst := by
  induction l with
  | nil => simp [assocUpsert]
  | cons hd tl ih =>
    obtain ⟨k3, v3⟩ := hd
    simp only [assocUpsert]
    split
    next h3 =>
      subst h3
      simp only [List.map_cons, List.mem_cons]
      tauto
    next h3 =>
      simp only [List.map_cons, List.mem_cons, ih]
      tauto

theorem nodup_keys_assocUpsert {α β : Type} [DecidableEq α]
    (l : List (α × β)) (k : α) (v : β) (h : (l.map Prod.fst).Nodup) :
    ((assocUpsert l k v).map Prod.fst).Nodup := by
  induction l with
  | nil => simp [assocUpsert]
  | cons hd tl ih =>
    obtain ⟨k3, v3⟩ := hd
    simp only [List.map_cons, List.nodup_cons] at h
    by_cases h3 : k3 = k
    · subst h3
      simpa [assocUpsert] using h
    · simp only [assocUpsert, if_neg h3, List.map_cons, List.nodup_cons]
      refine ⟨?_, ih h.2⟩
      rw [mem_keys_assocUpsert]
      rintro (rfl | h4)
      · exact h3 rfl
      · exact h.1 h4

theorem assocUpsert_entry_pred {α β : Type} [DecidableEq α]
    (P : α × β → Prop) (l : List (α × β)) (k : α) (v : β)
    (hl : ∀ e ∈ l, P e) (hkv : P (k, v)) :
    ∀ e ∈ assocUpsert l k v, P e := by
  induction l with
  | nil => simpa [assocUpsert] using hkv
  | cons hd tl ih =>
    obtain ⟨k3, v3⟩ := hd
    by_cases h3 : k3 = k
    · subst h3
      simp only [assocUpsert, if_pos rfl]
      intro e he
      rcases List.mem_cons.1 he with rfl | he2
      · exact hkv
      · exact hl e (List.mem_cons_of_mem _ he2)
    · simp only [assocUpsert, if_neg h3]
      intro e he
      rcases List.mem_cons.1 he with rfl | he2
      · exact hl _ (List.mem_cons_self _ _)
      · exact ih (fun e2 he3 => hl e2 (List.mem_cons_of_mem _ he3)) e he2

theorem mem_keys_bufferObjs (modelObjs : List BObj) :
    ∀ (b : List (BufKey × Option BObj)) (k : BufKey),
      k ∈ (bufferObjs b modelObjs).map Prod.fst ↔
        k ∈ b.map Prod.fst ∨ ∃ o ∈ modelObjs, k = some (o.cls, o.pk) := by
  induction modelObjs with
  | nil => simp [bufferObjs]
  | cons o rest ih =>
    intro b k
    simp only [bufferObjs, List.foldl_cons]
    rw [show List.foldl (fun b2 o2 => assocUpsert b2 (some (o2.cls, o2.pk)) (some o2))
        (assocUpsert b (some (o.cls, o.pk)) (some o)) rest =
      bufferObjs (assocUpsert b (some (o.cls, o.pk)) (some o)) rest from rfl]
    rw [ih, mem_keys_assocUpsert]
    constructor
    · rintro ((rfl | h) | ⟨o2, ho2, rfl⟩)
      · exact Or.inr ⟨o, by simp⟩
      · exact Or.inl h
      · exact Or.inr ⟨o2, by simp [ho2]⟩
    · rintro (h | ⟨o2, ho2, rfl⟩)
      · exact Or.inl (Or.inr h)
      · rcases List.mem_cons.1 ho2 with rfl | h2
        · exact Or.inl (Or.inl rfl)
        · exact Or.inr ⟨o2, h2, rfl⟩

theorem nodup_keys_bufferObjs (modelObjs : List BObj) :
    ∀ (b : List (BufKey × Option BObj)),
      (b.map Prod.fst).Nodup → ((bufferObjs b modelObjs).map Prod.fst).Nodup := by
  induction modelObjs with
  | nil => intro b h; simpa [bufferObjs] using h
  | cons o rest ih =>
    intro b h
    exact ih _ (nodup_keys_assocUpsert _ _ _ h)

theorem bufferObjs_entry_pred (P : BufKey × Option BObj → Prop)
    (hP : ∀ o : BObj, P (some (o.cls, o.pk), some o)) (modelObjs : List BObj) :
    ∀ (b : List (BufKey × Option BObj)), (∀ e ∈ b, P e) →
      ∀ e ∈ bufferObjs b modelObjs, P e := by
  induction modelObjs with
  | nil => intro b hb; simpa [bufferObjs] using hb
  | cons o rest ih =>
    intro b hb
    exact ih _ (assocUpsert_entry_pred P b _ _ hb (hP o))

/-- Well-formedness of one buffer entry: either the full-sync marker
(`buffer[None] = None`) or an object stored under its own `(class, pk)`. -/
def BufEntryOk (e : BufKey × Option BObj) : Prop :=
  e.1 = none ∨ ∃ o, e.2 = some o ∧ e.1 = some (o.cls, o.pk)

theorem syncEntitiesCall_deferred (s : SyncCallState) (c : List BObj)
    (h1 : s.suppress = false) (h2 : s.defer = true) :
    syncEntitiesCall s c =
      { s with buffer := if c.isEmpty then assocUpsert s.buffer none none
                         else bufferObjs s.buffer c } := by
  by_cases hc : c.isEmpty <;> simp [syncEntitiesCall, h1, h2, hc]

theorem foldl_sync_flags (calls : List (List BObj)) :
    ∀ s : SyncCallState, s.suppress = false → s.defer = true →
      (calls.foldl syncEntitiesCall s).suppress = false ∧
      (calls.foldl syncEntitiesCall s).defer = true ∧
      (calls.foldl syncEntitiesCall s).executed = s.executed := by
  induction calls with
  | nil => exact fun s h1 h2 => ⟨h1, h2, rfl⟩
  | cons c rest ih =>
    intro s h1 h2
    rw [List.foldl_cons, syncEntitiesCall_deferred s c h1 h2]
    exact ih _ h1 h2

theorem foldl_sync_bufkeys (calls : List (List BObj)) :
    ∀ s : SyncCallState, s.suppress = false → s.defer = true → ∀ k : BufKey,
      k ∈ ((calls.foldl syncEntitiesCall s).buffer.map Prod.fst) ↔
        k ∈ s.buffer.map Prod.fst ∨ (([] : List BObj) ∈ calls ∧ k = none) ∨
          ∃ o ∈ calls.flatten, k = some (o.cls, o.pk) := by
  induction calls with
  | nil => simp
  | cons c rest ih =>
    intro s h1 h2 k
    rw [List.foldl_cons, syncEntitiesCall_deferred s c h1 h2]
    rw [ih { s with buffer := if c.isEmpty then assocUpsert s.buffer none none
                              else bufferObjs s.buffer c } h1 h2 k]
    by_cases hc : c.isEmpty
    · have hc0 : c = [] := List.isEmpty_iff.1 hc
      rw [if_pos hc, mem_keys_assocUpsert]
      subst hc0
      simp only [List.mem_cons, List.flatten_cons, List.nil_append]
      tauto
    · have hc2 : c ≠ [] := fun h3 => hc (by simp [h3])
      simp only [if_neg hc, mem_keys_bufferObjs]
      simp only [List.mem_cons, List.flatten_cons, List.mem_append]
      constructor
      · rintro ((hk | ⟨o, ho, rfl⟩) | hrest | ⟨o, ho, rfl⟩)
        · exact Or.inl hk
        · exact Or.inr (Or.inr ⟨o, Or.inl ho, rfl⟩)
        · exact Or.inr (Or.inl ⟨Or.inr hrest.1, hrest.2⟩)
        · exact Or.inr (Or.inr ⟨o, Or.inr ho, rfl⟩)
      · rintro (hk | ⟨hrest, rfl⟩ | ⟨o, ho | ho, rfl⟩)
        · exact Or.inl (Or.inl hk)
        · rcases hrest with hrest | hrest
          · exact absurd hrest.symm hc2
          · exact Or.inr (Or.inl ⟨hrest, rfl⟩)
        · exact Or.inl (Or.inr ⟨o, ho, rfl⟩)
        · exact Or.inr (Or.inr ⟨o, ho, rfl⟩)

theorem foldl_sync_nodup (calls : List (List BObj)) :
    ∀ s : SyncCallState, s.suppress = false → s.defer = true →
      (s.buffer.map Prod.fst).Nodup →
      ((calls.foldl syncEntitiesCall s).buffer.map Prod.fst).Nodup := by
  induction calls with
  | nil => exact fun s _ _ h => h
  | cons c rest ih =>
    intro s h1 h2 h3
    rw [List.foldl_cons, syncEntitiesCall_deferred s c h1 h2]
    refine ih _ h1 h2 ?_
    by_cases hc : c.isEmpty
    · simpa [hc] using nodup_keys_assocUpsert s.buffer none none h3
    · simpa [hc] using nodup_keys_bufferObjs c s.buffer h3

theorem foldl_sync_entryok (calls : List (List BObj)) :
    ∀ s : SyncCallState, s.suppress = false → s.defer = true →
      (∀ e ∈ s.buffer, BufEntryOk e) →
      ∀ e ∈ (calls.foldl syncEntitiesCall s).buffer, BufEntryOk e := by
  induction calls with
  | nil => exact fun s _ _ h => h
  | cons c rest ih =>
    intro s h1 h2 h3
    rw [List.foldl_cons, syncEntitiesCall_deferred s c h1 h2]
    refine ih _ h1 h2 ?_
    by_cases hc : c.isEmpty
    · simpa [hc] using
        assocUpsert_entry_pred BufEntryOk s.buffer none none h3 (Or.inl rfl)
    · simpa [hc] using
        bufferObjs_entry_pred BufEntryOk (fun o => Or.inr ⟨o, rfl, rfl⟩) c s.buffer h3

theorem flush_args_keys (b : List (BufKey × Option BObj))
    (hok : ∀ e ∈ b, BufEntryOk e) (hnm : (none : BufKey) ∉ b.map Prod.fst) :
    keysOf (b.filterMap (fun e => e.2)) = b.filterMap (fun e => e.1) := by
  induction b with
  | nil => rfl
  | cons e rest ih =>
    obtain ⟨k, v⟩ := e
    have hk : k ≠ none := by
      intro h3
      exact hnm (by simp [h3])
    rcases hok _ (List.mem_cons_self _ _) with h3 | ⟨o, hv, hkey⟩
    · exact absurd h3 hk
    · simp only at hv hkey
      subst hv
      subst hkey
      have ihr := ih (fun e2 he2 => hok e2 (List.mem_cons_of_mem _ he2))
        (fun h4 => hnm (by
          simp only [List.map_cons, List.mem_cons]
          exact Or.inr h4))
      simp [keysOf, List.filterMap_cons] at ihr ⊢
      exact ihr

theorem nodup_filterMap_bufkeys (b : List (BufKey × Option BObj))
    (h : (b.map Prod.fst).Nodup) : (b.filterMap (fun e => e.1)).Nodup := by
  induction b with
  | nil => simp
  | cons e rest ih =>
    obtain ⟨k, v⟩ := e
    simp only [List.map_cons, List.nodup_cons] at h
    cases k with
    | none => simpa [List.filterMap_cons] using ih h.2
    | some p =>
      simp only [List.filterMap_cons, List.nodup_cons]
      refine ⟨?_, ih h.2⟩
      intro hp
      rcases List.mem_filterMap.1 hp with ⟨e2, he2, hke⟩
      exact h.1 (by simpa [← hke] using List.mem_map_of_mem Prod.fst he2)

theorem deferEntitySyncing_eq (calls : List (List BObj)) (h : calls ≠ []) :
    deferEntitySyncing calls initSyncCallState =
      { defer := false, suppress := false, buffer := [],
        executed := [if (calls.foldl syncEntitiesCall
              { initSyncCallState with defer := true }).buffer.any
                (fun e => e.1 = none)
          then []
          else (calls.foldl syncEntitiesCall
              { initSyncCallState with defer := true }).buffer.filterMap
                (fun e => e.2)] } := by
  obtain ⟨hsup, hdef, hexec⟩ :=
    foldl_sync_flags calls { initSyncCallState with defer := true } rfl rfl
  have hbne : (calls.foldl syncEntitiesCall
      { initSyncCallState with defer := true }).buffer ≠ [] := by
    obtain ⟨c, rest, rfl⟩ : ∃ c rest, calls = c :: rest := by
      cases calls with
      | nil => exact absurd rfl h
      | cons c rest => exact ⟨c, rest, rfl⟩
    intro hempty
    have hkeys := foldl_sync_bufkeys (c :: rest)
      { initSyncCallState with defer := true } rfl rfl
    cases c with
    | nil =>
      have hmem : (none : BufKey) ∈ (((List.nil : List BObj) :: rest).foldl
          syncEntitiesCall { initSyncCallState with defer := true }).buffer.map
          Prod.fst := by
        rw [hkeys none]
        exact Or.inr (Or.inl ⟨List.mem_cons_self _ _, rfl⟩)
      rw [hempty] at hmem
      simp at hmem
    | cons o c2 =>
      have hmem : (some (o.cls, o.pk) : BufKey) ∈ (((o :: c2) :: rest).foldl
          syncEntitiesCall { initSyncCallState with defer := true }).buffer.map
          Prod.fst := by
        rw [hkeys (some (o.cls, o.pk))]
        refine Or.inr (Or.inr ⟨o, ?_, rfl⟩)
        simp
      rw [hempty] at hmem
      simp at hmem
  have hbisempty : (calls.foldl syncEntitiesCall
      { initSyncCallState with defer := true }).buffer.isEmpty = false := by
    rw [Bool.eq_false_iff]
    intro hx
    exact hbne (List.isEmpty_iff.1 hx)
  simp only [initSyncCallState] at hsup hdef hexec hbne hbisempty
  simp only [deferEntitySyncing, syncEntitiesCall, initSyncCallState]
  simp [hsup, hdef, hexec, hbne]

/-- C7: while defer mode is active every `sync_entities` call is buffered
instead of executed, deduplicated by `(model class, pk)` with a zero-argument
call recorded as the full-sync marker; when deferral ends exactly one
consolidated `sync_entities` call is made covering all buffered objects (a
full sync when the marker is present), and the buffer is cleared. -/
theorem defer_entity_syncing_consolidates (calls : List (List BObj))
    (h : calls ≠ []) :
    (deferEntitySyncing calls initSyncCallState).executed.length = 1 ∧
    (deferEntitySyncing calls initSyncCallState).buffer = [] ∧
    (([] : List BObj) ∈ calls →
      (deferEntitySyncing calls initSyncCallState).executed = [[]]) ∧
    (([] : List BObj) ∉ calls →
      ∃ args, (deferEntitySyncing calls initSyncCallState).executed = [args] ∧
        (keysOf args).Nodup ∧
        ∀ k, k ∈ keysOf args ↔ k ∈ keysOf calls.flatten) := by
  rw [deferEntitySyncing_eq calls h]
  have hkeys := foldl_sync_bufkeys calls { initSyncCallState with defer := true }
    rfl rfl
  have hnodup := foldl_sync_nodup calls { initSyncCallState with defer := true }
    rfl rfl (by simp [initSyncCallState])
  have hok := foldl_sync_entryok calls { initSyncCallState with defer := true }
    rfl rfl (by simp [initSyncCallState])
  set b := (calls.foldl syncEntitiesCall
    { initSyncCallState with defer := true }).buffer with hb
  refine ⟨by simp, rfl, ?_, ?_⟩
  · intro hmarker
    have hny : b.any (fun e => e.1 = none) = true := by
      have hmem : (none : BufKey) ∈ b.map Prod.fst := by
        rw [hkeys none]
        exact Or.inr (Or.inl ⟨hmarker, rfl⟩)
      rcases List.mem_map.1 hmem with ⟨e, he, hke⟩
      exact List.any_eq_true.2 ⟨e, he, by simp [hke]⟩
    simp [hny]
  · intro hnm
    have hnone : (none : BufKey) ∉ b.map Prod.fst := by
      rw [hkeys none]
      rintro (hfalse | ⟨hmem, _⟩ | ⟨o, _, hcontr⟩)
      · simp [initSyncCallState] at hfalse
      · exact hnm hmem
      · exact Option.noConfusion hcontr
    have hany : b.any (fun e => e.1 = none) = false := by
      rw [Bool.eq_false_iff]
      intro hx
      rcases List.any_eq_true.1 hx with ⟨e, he, hke⟩
      have hke2 : e.1 = none := by simpa using hke
      exact hnone (hke2 ▸ List.mem_map_of_mem Prod.fst he)
    refine ⟨b.filterMap (fun e => e.2), by simp [hany], ?_, ?_⟩
    · rw [flush_args_keys b hok hnone]
      exact nodup_filterMap_bufkeys b hnodup
    · intro k
      rw [flush_args_keys b hok hnone]
      constructor
      · intro hkmem
        rcases List.mem_filterMap.1 hkmem with ⟨e, he, hke⟩
        have hsk : (some k : BufKey) ∈ b.map Prod.fst :=
          List.mem_map.2 ⟨e, he, hke⟩
        rw [hkeys (some k)] at hsk
        rcases hsk with hfalse | ⟨_, habs⟩ | ⟨o, ho, heq⟩
        · simp [initSyncCallState] at hfalse
        · exact Option.noConfusion habs
        · obtain rfl : k = (o.cls, o.pk) := Option.some.inj heq
          exact List.mem_map.2 ⟨o, ho, rfl⟩
      · intro hkmem
        rcases List.mem_map.1 hkmem with ⟨o, ho, rfl⟩
        have hsk : (some (o.cls, o.pk) : BufKey) ∈ b.map Prod.fst := by
          rw [hkeys (some (o.cls, o.pk))]
          exact Or.inr (Or.inr ⟨o, ho, rfl⟩)
        rcases List.mem_map.1 hsk with ⟨e, he, hke⟩
        exact List.mem_filterMap.2 ⟨e, he, hke⟩

/-- Witness for C7 (Scenario C): five accounts created under deferral give
exactly one consolidated sync pass whose argument keys are exactly the five
accounts' `(class, pk)` keys, with the buffer cleared afterwards. -/
theorem defer_entity_syncing_consolidates_witness :
    (deferEntitySyncing
        [[⟨0, 1, 0⟩], [⟨0, 2, 0⟩], [⟨0, 3, 0⟩], [⟨0, 4, 0⟩], [⟨0, 5, 0⟩]]
        initSyncCallState).executed.length = 1 ∧
    (deferEntitySyncing
        [[⟨0, 1, 0⟩], [⟨0, 2, 0⟩], [⟨0, 3, 0⟩], [⟨0, 4, 0⟩], [⟨0, 5, 0⟩]]
        initSyncCallState).buffer = [] := by
  have h := defer_entity_syncing_consolidates
    [[⟨0, 1, 0⟩], [⟨0, 2, 0⟩], [⟨0, 3, 0⟩], [⟨0, 4, 0⟩], [⟨0, 5, 0⟩]]
    (by simp)
  exact ⟨h.1, h.2.1⟩

/-!
## Entity registration (`EntityRegistry.register_entity`, config.py lines
96-120)
-/

/-- The `model_or_qset` argument of `register_entity`: a class subclassing
`Model` (carrying the model), a `Manager`/`QuerySet` instance (carrying its
`.model`), or any other value (including classes that do not subclass
`Model`, which fall through both `isclass`/`issubclass` tests). -/
inductive RegArg where
  | modelClass (model : Nat)
  | managerOrQuerySet (model : Nat)
  | otherValue
  deriving DecidableEq

/-- A candidate entity-config class: an identity, whether it subclasses
`EntityConfig`, and its `watching` class attribute as (watched model,
extractor id) pairs. -/
structure ConfigClass where
  id : Nat
  isEntityConfigSubclass : Bool
  watching : List (Nat × Nat)
  deriving DecidableEq

/-- The `EntityConfig` base class itself, the default when `entity_config`
is `None`. -/
def baseEntityConfig : ConfigClass :=
  { id := 0, isEntityConfigSubclass := true, watching := [] }

/-- `EntityRegistry` state: `_entity_registry` maps a model to its
`(qset, entity_config())` pair — the qset is `some model` when a
Manager/QuerySet was registered (`model_or_qset.all()`) and `none` for a
plain model class; `_entity_watching` is the defaultdict of watchers. -/
structure RegistryState where
  entityRegistry : List (Nat × (Option Nat × Nat))
  entityWatching : List (Nat × List (Nat × Nat))
  deriving DecidableEq

/-- The two `ValueError`s that `register_entity` can raise. -/
inductive RegError where
  | invalidModelOrQset
  | invalidConfig
  deriving DecidableEq

/-- The tail of `register_entity` after the model/queryset discrimination:
config default and subclass check, then the membership no-op guard, then the
registration and watcher bookkeeping. -/
def registerGo (model : Nat) (qset : Option Nat)
    (entityConfig : Option ConfigClass) (s : RegistryState) :
    Except RegError RegistryState :=
  let cfg := entityConfig.getD baseEntityConfig
  if cfg.isEntityConfigSubclass = false then Except.error RegError.invalidConfig
  else if (assocFind model s.entityRegistry).isSome then Except.ok s
  else Except.ok
    { entityRegistry := s.entityRegistry ++ [(model, (qset, cfg.id))],
      entityWatching := cfg.watching.foldl
        (fun w p => assocUpsert w p.1 (assocGetD w p.1 [] ++ [(model, p.2)]))
        s.entityWatching }

/-- `EntityRegistry.register_entity(model_or_qset, entity_config)`
(config.py lines 96-120). -/
def registerEntity (modelOrQset : RegArg) (entityConfig : Option ConfigClass)
    (s : RegistryState) : Except RegError RegistryState :=
  match modelOrQset with
  | RegArg.otherValue => Except.error RegError.invalidModelOrQset
  | RegArg.modelClass m => registerGo m none entityConfig s
  | RegArg.managerOrQuerySet m => registerGo m (some m) entityConfig s

/-- C9: `register_entity` fails fast with a `ValueError` for every argument
that is neither a model class nor a Manager/QuerySet instance, and for every
entity config that is not a subclass of `EntityConfig`; re-registering an
already-registered model is a no-op leaving the whole registry state
(queryset, config and watchers) unchanged. -/
theorem register_entity_validation_and_idempotence :
    (∀ (cfg : Option ConfigClass) (s : RegistryState),
      registerEntity RegArg.otherValue cfg s =
        Except.error RegError.invalidModelOrQset) ∧
    (∀ (arg : RegArg) (m : Nat) (cfg : ConfigClass) (s : RegistryState),
      (arg = RegArg.modelClass m ∨ arg = RegArg.managerOrQuerySet m) →
      cfg.isEntityConfigSubclass = false →
      registerEntity arg (some cfg) s = Except.error RegError.invalidConfig) ∧
    (∀ (arg : RegArg) (m : Nat) (cfg : Option ConfigClass) (s : RegistryState),
      (arg = RegArg.modelClass m ∨ arg = RegArg.managerOrQuerySet m) →
      (cfg.getD baseEntityConfig).isEntityConfigSubclass = true →
      (assocFind m s.entityRegistry).isSome →
      registerEntity arg cfg s = Except.ok s) := by
  refine ⟨fun cfg s => rfl, ?_, ?_⟩
  · rintro arg m cfg s (rfl | rfl) hbad <;>
      simp [registerEntity, registerGo, hbad]
  · rintro arg m cfg s (rfl | rfl) hgood hmem <;>
      simp [registerEntity, registerGo, hgood, hmem]

/-- Witness for C9: re-registering model 1 (already registered with config 7)
under a different valid config is a no-op, and registering a non-model value
raises the configuration `ValueError`. -/
theorem register_entity_validation_and_idempotence_witness :
    registerEntity (RegArg.modelClass 1)
        (some { id := 9, isEntityConfigSubclass := true, watching := [] })
        { entityRegistry := [(1, (none, 7))], entityWatching := [] } =
      Except.ok { entityRegistry := [(1, (none, 7))], entityWatching := [] } ∧
    registerEntity RegArg.otherValue none
        { entityRegistry := [(1, (none, 7))], entityWatching := [] } =
      Except.error RegError.invalidModelOrQset := by
  constructor
  · exact register_entity_validation_and_idempotence.2.2
      (RegArg.modelClass 1) 1
      (some { id := 9, isEntityConfigSubclass := true, watching := [] })
      { entityRegistry := [(1, (none, 7))], entityWatching := [] }
      (Or.inl rfl) rfl (by simp [assocFind])
  · exact register_entity_validation_and_idempotence.1 none
      { entityRegistry := [(1, (none, 7))], entityWatching := [] }

/-!
## `EntityGroupManager.get_membership_cache` (models.py lines 314-340)
-/

/-- One `EntityGroupMembership` row: group id, optional entity reference and
optional sub-entity kind. -/
structure GMembership where
  entityGroupId : Nat
  entity : Option Nat
  subEntityKindId : Option Nat
  deriving DecidableEq

/-- The queryset of `get_membership_cache`:
`Q(entity__isnull=True) | (Q(entity__isnull=False) & Q(entity__is_active=is_active))`,
replaced by an unfiltered queryset when `is_active is None`, then restricted
to `entity_group_id__in=group_ids` when `group_ids` is truthy.
`entityIsActive` is the `is_active` column of the Entity table. -/
def membershipQueryset (memberships : List GMembership)
    (entityIsActive : Nat → Bool) (groupIds : Option (List Nat))
    (isActive : Option Bool) : List GMembership :=
  let qs1 := match isActive with
    | none => memberships
    | some b => memberships.filter (fun m =>
        match m.entity with
        | none => true
        | some e => entityIsActive e == b)
  match groupIds with
  | none => qs1
  | some gids =>
    if gids.isEmpty then qs1
    else qs1.filter (fun m => decide (m.entityGroupId ∈ gids))

/-- Build the cache dict keyed by group id, each value the list of
`[entity_id, sub_entity_kind_id]` pairs (models.py lines 335-340). -/
def getMembershipCache (memberships : List GMembership)
    (entityIsActive : Nat → Bool) (groupIds : Option (List Nat))
    (isActive : Option Bool) : List (Nat × List (Option Nat × Option Nat)) :=
  (membershipQueryset memberships entityIsActive groupIds isActive).foldl
    (fun cache m => assocUpsert cache m.entityGroupId
      (assocGetD cache m.entityGroupId [] ++ [(m.entity, m.subEntityKindId)]))
    []

theorem cache_step_preserves (cache : List (Nat × List (Option Nat × Option Nat)))
    (m : GMembership) (g : Nat) (x : Option Nat × Option Nat)
    (h : x ∈ assocGetD cache g []) :
    x ∈ assocGetD (assocUpsert cache m.entityGroupId
      (assocGetD cache m.entityGroupId [] ++ [(m.entity, m.subEntityKindId)])) g [] := by
  by_cases hg : m.entityGroupId = g
  · subst hg
    simp only [assocGetD] at h ⊢
    rw [assocFind_upsert_self]
    simp only [Option.getD_some, List.mem_append]
    exact Or.inl h
  · simp only [assocGetD] at h ⊢
    rw [assocFind_upsert_other _ _ _ _ (Ne.symm hg)]
    exact h

theorem cache_fold_preserves (l : List GMembership) :
    ∀ (cache : List (Nat × List (Option Nat × Option Nat))) (g : Nat)
      (x : Option Nat × Option Nat), x ∈ assocGetD cache g [] →
      x ∈ assocGetD (l.foldl
        (fun cache2 m => assocUpsert cache2 m.entityGroupId
          (assocGetD cache2 m.entityGroupId [] ++ [(m.entity, m.subEntityKindId)]))
        cache) g [] := by
  induction l with
  | nil => exact fun cache g x h => h
  | cons m rest ih =>
    intro cache g x h
    exact ih _ g x (cache_step_preserves cache m g x h)

theorem cache_fold_mem (l : List GMembership) :
    ∀ (cache : List (Nat × List (Option Nat × Option Nat))) (m : GMembership),
      m ∈ l →
      (m.entity, m.subEntityKindId) ∈ assocGetD (l.foldl
        (fun cache2 m2 => assocUpsert cache2 m2.entityGroupId
          (assocGetD cache2 m2.entityGroupId [] ++ [(m2.entity, m2.subEntityKindId)]))
        cache) m.entityGroupId [] := by
  induction l with
  | nil => intro cache m h; exact absurd h (List.not_mem_nil m)
  | cons m2 rest ih =>
    intro cache m h
    rw [List.foldl_cons]
    rcases List.mem_cons.1 h with rfl | h2
    · refine cache_fold_preserves rest _ _ _ ?_
      simp only [assocGetD]
      rw [assocFind_upsert_self]
      simp
    · exact ih _ m h2

/-- C8 (amended): `get_membership_cache` applies the `is_active` policy to
the membership's referenced entity only: memberships with no entity
reference are always included; with `is_active=true` those whose entity is
active; with `is_active=false` those whose entity is inactive; with
`is_active=null` no activity filtering at all.  Relationship activity is
never consulted.  Every queryset row lands in its group's cache list. -/
theorem get_membership_cache_activity_policy :
    (∀ (ms : List GMembership) (act : Nat → Bool),
      membershipQueryset ms act none none = ms) ∧
    (∀ (ms : List GMembership) (act : Nat → Bool) (ia : Option Bool)
        (m : GMembership),
      m ∈ membershipQueryset ms act none ia ↔
        m ∈ ms ∧ (ia = none ∨ m.entity = none ∨
          ∃ b e, ia = some b ∧ m.entity = some e ∧ act e = b)) ∧
    (∀ (ms : List GMembership) (act : Nat → Bool) (gids : Option (List Nat))
        (ia : Option Bool) (m : GMembership),
      m ∈ membershipQueryset ms act gids ia →
      (m.entity, m.subEntityKindId) ∈
        assocGetD (getMembershipCache ms act gids ia) m.entityGroupId []) := by
  refine ⟨fun ms act => rfl, ?_, ?_⟩
  · intro ms act ia m
    cases ia with
    | none => simp [membershipQueryset]
    | some b =>
      simp only [membershipQueryset, List.mem_filter]
      constructor
      · rintro ⟨hmem, hcond⟩
        refine ⟨hmem, ?_⟩
        cases he : m.entity with
        | none => exact Or.inr (Or.inl rfl)
        | some e =>
          rw [he] at hcond
          simp only [beq_iff_eq] at hcond
          exact Or.inr (Or.inr ⟨b, e, rfl, rfl, hcond⟩)
      · rintro ⟨hmem, hnone | he | ⟨b2, e, hb2, he, hact⟩⟩
        · exact Option.noConfusion hnone
        · refine ⟨hmem, ?_⟩
          rw [he]
        · obtain rfl : b = b2 := Option.some.inj hb2
          refine ⟨hmem, ?_⟩
          rw [he]
          simpa using hact
  · intro ms act gids ia m hmem
    exact cache_fold_mem _ [] m hmem

/-- Counterexample for C8: with `is_active=true` and no active entity or
relationship anywhere (the activity column is constantly false), a
kind-only membership row (no entity reference at all) is still included in
the cache — so it is not the case that only memberships whose entity and
relationship are both active are included. -/
theorem get_membership_cache_counterexample :
    getMembershipCache
        [{ entityGroupId := 1, entity := none, subEntityKindId := some 5 }]
        (fun _ => false) none (some true) = [(1, [(none, some 5)])] ∧
    ({ entityGroupId := 1, entity := none, subEntityKindId := some 5 } :
      GMembership).entity = none := by
  constructor <;> rfl

/-!
## Activation diff and events (`EntitySyncer.upsert_entities`, sync.py lines
509-533, and `EntitySyncer.send_entity_activation_events`, lines 559-588)
-/

/-- Activation state of an entity id in a `{id: is_active}` dict, defaulting
to `False` (sync.py lines 521 and 526). -/
def stateOf (l : List (Nat × Bool)) (i : Nat) : Bool :=
  (assocFind i l).getD false

/-- The `changed_entity_activation_state` computation (sync.py lines
516-530): over the union of the ids of the initial and current states, keep
the ids whose activation state changed, mapped to the current state. -/
def changedEntityActivationState (initial current : List (Nat × Bool)) :
    List (Nat × Bool) :=
  ((initial.map Prod.fst ++ current.map Prod.fst).dedup).filterMap (fun i =>
    if stateOf initial i ≠ stateOf current i then some (i, stateOf current i)
    else none)

/-- The loop of `send_entity_activation_events` (sync.py lines 566-572)
splitting the changed state into the activated and deactivated id sets. -/
def partitionActivation (changed : List (Nat × Bool)) : List Nat × List Nat :=
  changed.foldl
    (fun acc p => if p.2 then (setAdd acc.1 p.1, acc.2)
                  else (acc.1, setAdd acc.2 p.1))
    ([], [])

/-- `send_entity_activation_events` (sync.py lines 559-588): emit one
`model_activations_changed` event with the sorted activated ids and
`is_active=True` when any entity was activated, and one with the sorted
deactivated ids and `is_active=False` when any was deactivated.  The result
is the list of `(instance_ids, is_active)` payloads sent, in order. -/
def sendEntityActivationEvents (changed : List (Nat × Bool)) :
    List (List Nat × Bool) :=
  let part := partitionActivation changed
  (if part.1.isEmpty then [] else [(sortNats part.1, true)]) ++
    (if part.2.isEmpty then [] else [(sortNats part.2, false)])

/-- Specification-side description: the ids that became active (were
inactive or absent before, active now). -/
def becameActive (initial current : List (Nat × Bool)) : List Nat :=
  ((initial.map Prod.fst ++ current.map Prod.fst).dedup).filter
    (fun i => !stateOf initial i && stateOf current i)

/-- Specification-side description: the ids that became inactive. -/
def becameInactive (initial current : List (Nat × Bool)) : List Nat :=
  ((initial.map Prod.fst ++ current.map Prod.fst).dedup).filter
    (fun i => stateOf initial i && !stateOf current i)

theorem partition_foldl_eq (ini cur : List (Nat × Bool)) :
    ∀ (l : List Nat) (acc1 acc2 : List Nat), l.Nodup →
      (∀ i ∈ l, i ∉ acc1) → (∀ i ∈ l, i ∉ acc2) →
      (l.filterMap (fun i =>
          if stateOf ini i ≠ stateOf cur i then some (i, stateOf cur i)
          else none)).foldl
        (fun acc p => if p.2 then (setAdd acc.1 p.1, acc.2)
                      else (acc.1, setAdd acc.2 p.1))
        (acc1, acc2) =
      (acc1 ++ l.filter (fun i => !stateOf ini i && stateOf cur i),
        acc2 ++ l.filter (fun i => stateOf ini i && !stateOf cur i)) := by
  intro l
  induction l with
  | nil => intro acc1 acc2 _ _ _; simp
  | cons i rest ih =>
    intro acc1 acc2 hnd h1 h2
    rw [List.nodup_cons] at hnd
    have h1r : ∀ j ∈ rest, j ∉ acc1 :=
      fun j hj => h1 j (List.mem_cons_of_mem _ hj)
    have h2r : ∀ j ∈ rest, j ∉ acc2 :=
      fun j hj => h2 j (List.mem_cons_of_mem _ hj)
    cases hini : stateOf ini i <;> cases hcur : stateOf cur i
    · simp only [List.filterMap_cons, List.filter_cons, hini, hcur]
      simp only [ne_eq, not_true_eq_false, if_false, Bool.not_false,
        Bool.and_false, Bool.false_and, if_neg (by simp : ¬False)]
      simpa using ih acc1 acc2 hnd.2 h1r h2r
    · have hstep : setAdd acc1 i = acc1 ++ [i] := by
        rw [setAdd, if_neg (h1 i (List.mem_cons_self _ _))]
      have h1i : ∀ j ∈ rest, j ∉ acc1 ++ [i] := by
        intro j hj
        simp only [List.mem_append, List.mem_singleton]
        rintro (hja | rfl)
        · exact h1r j hj hja
        · exact hnd.1 hj
      simp only [List.filterMap_cons, List.filter_cons, hini, hcur]
      simp [hstep]
      simp only [ne_eq, ite_not] at ih
      rw [ih (acc1 ++ [i]) acc2 hnd.2 h1i h2r]
      simp
    · have hstep : setAdd acc2 i = acc2 ++ [i] := by
        rw [setAdd, if_neg (h2 i (List.mem_cons_self _ _))]
      have h2i : ∀ j ∈ rest, j ∉ acc2 ++ [i] := by
        intro j hj
        simp only [List.mem_append, List.mem_singleton]
        rintro (hja | rfl)
        · exact h2r j hj hja
        · exact hnd.1 hj
      simp only [List.filterMap_cons, List.filter_cons, hini, hcur]
      simp [hstep]
      simp only [ne_eq, ite_not] at ih
      rw [ih acc1 (acc2 ++ [i]) hnd.2 h1r h2i]
      simp
    · simp only [List.filterMap_cons, List.filter_cons, hini, hcur]
      simp only [ne_eq, not_true_eq_false, if_false, Bool.not_true,
        Bool.and_false, Bool.false_and, if_neg (by simp : ¬False)]
      simpa using ih acc1 acc2 hnd.2 h1r h2r

theorem partitionActivation_changed (initial current : List (Nat × Bool)) :
    partitionActivation (changedEntityActivationState initial current) =
      (becameActive initial current, becameInactive initial current) := by
  have h := partition_foldl_eq initial current
    ((initial.map Prod.fst ++ current.map Prod.fst).dedup) [] []
    (List.nodup_dedup _) (by simp) (by simp)
  simpa [partitionActivation, changedEntityActivationState, becameActive,
    becameInactive] using h

/-- C5: after the entity upsert the syncer diffs each entity's `is_active`
flag before and after and emits at most two activation events: one carrying
the sorted list of ids that became active with `is_active=True` and one
carrying the sorted list of ids that became inactive with `is_active=False`;
when no entity's activation state changed, zero events are emitted. -/
theorem upsert_entities_activation_events (initial current : List (Nat × Bool)) :
    (sendEntityActivationEvents
        (changedEntityActivationState initial current)).length ≤ 2 ∧
    (∀ ids flag, (ids, flag) ∈ sendEntityActivationEvents
        (changedEntityActivationState initial current) →
      (flag = true → ids = sortNats (becameActive initial current)) ∧
      (flag = false → ids = sortNats (becameInactive initial current))) ∧
    (becameActive initial current ≠ [] →
      (sortNats (becameActive initial current), true) ∈
        sendEntityActivationEvents (changedEntityActivationState initial current)) ∧
    (becameInactive initial current ≠ [] →
      (sortNats (becameInactive initial current), false) ∈
        sendEntityActivationEvents (changedEntityActivationState initial current)) ∧
    ((∀ i, stateOf initial i = stateOf current i) →
      sendEntityActivationEvents (changedEntityActivationState initial current)
        = []) := by
  have hpart := partitionActivation_changed initial current
  refine ⟨?_, ?_, ?_, ?_, ?_⟩
  · by_cases hA : (becameActive initial current).isEmpty <;>
      by_cases hB : (becameInactive initial current).isEmpty <;>
      simp [sendEntityActivationEvents, hpart, hA, hB]
  · intro ids flag hmem
    by_cases hA : (becameActive initial current).isEmpty <;>
      by_cases hB : (becameInactive initial current).isEmpty <;>
      simp [sendEntityActivationEvents, hpart, hA, hB] at hmem <;>
      constructor <;> rintro rfl <;> simp_all
  · intro hA2
    have hAne : (becameActive initial current).isEmpty = false := by
      rw [Bool.eq_false_iff]
      intro hx
      exact hA2 (List.isEmpty_iff.1 hx)
    simp [sendEntityActivationEvents, hpart, hAne]
  · intro hB2
    have hBne : (becameInactive initial current).isEmpty = false := by
      rw [Bool.eq_false_iff]
      intro hx
      exact hB2 (List.isEmpty_iff.1 hx)
    simp [sendEntityActivationEvents, hpart, hBne]
  · intro hsame
    have hA3 : becameActive initial current = [] := by
      rw [becameActive, List.filter_eq_nil_iff]
      intro i _
      rw [hsame i]
      cases stateOf current i <;> simp
    have hB3 : becameInactive initial current = [] := by
      rw [becameInactive, List.filter_eq_nil_iff]
      intro i _
      rw [hsame i]
      cases stateOf current i <;> simp
    simp [sendEntityActivationEvents, hpart, hA3, hB3]

/-- Witness for C5: entity 1 flips inactive-to-active and entity 2
active-to-inactive; an event `([1], True)` is emitted. -/
theorem upsert_entities_activation_events_witness :
    (sortNats (becameActive [(1, false), (2, true)] [(1, true), (2, false)]),
        true) ∈
      sendEntityActivationEvents
        (changedEntityActivationState [(1, false), (2, true)]
          [(1, true), (2, false)]) :=
  (upsert_entities_activation_events [(1, false), (2, true)]
      [(1, true), (2, false)]).2.2.1 (by decide)

/-!
## The mirror database and `EntitySyncer.upsert_entity_kinds` (sync.py lines
383-434)
-/

/-- A row of the `EntityKind` table (name is unique). -/
structure KindRow where
  id : Nat
  name : String
  displayName : String
  deriving DecidableEq

/-- An unsaved `EntityKind(name=..., display_name=...)` instance passed to
`upsert_entity_kinds` (sync.py lines 302-305). -/
structure KindInput where
  name : String
  displayName : String
  deriving DecidableEq

/-- A row of the `Entity` table; `(entityTypeId, entityId)` is unique,
`id` is the surrogate primary key; `entityMeta` is the JSON blob, abstracted
to an optional payload. -/
structure EntityRow where
  id : Nat
  entityTypeId : Nat
  entityId : Nat
  entityKindId : Nat
  entityMeta : Option Nat
  displayName : String
  isActive : Bool
  deriving DecidableEq

/-- The mirror database: the three tables owned by the sync engine, plus the
next auto-increment values for the two surrogate keys.  A relationship row is
a `(sub_entity_id, super_entity_id)` pair (unique together). -/
structure Db where
  kinds : List KindRow
  entities : List EntityRow
  relationships : List (Nat × Nat)
  nextKindId : Nat
  nextEntityId : Nat
  deriving DecidableEq

/-- The batched `manager_utils.bulk_upsert` on `EntityKind` keyed on `name`
with `display_name` as the only update field: process the changed kinds in
order, updating the display name of existing rows and inserting rows for new
names. -/
def kindBulkUpsertGo : List KindInput → List KindRow → Nat → List KindRow × Nat
  | [], table, nid => (table, nid)
  | k :: rest, table, nid =>
    match table.find? (fun r => r.name == k.name) with
    | some _ => kindBulkUpsertGo rest
        (table.map (fun r => if r.name = k.name
          then { r with displayName := k.displayName } else r)) nid
    | none => kindBulkUpsertGo rest
        (table ++ [{ id := nid, name := k.name, displayName := k.displayName }])
        (nid + 1)

/-- The outcome of `upsert_entity_kinds`: the updated database, the returned
kind rows (upserts first, then the unchanged rows), and the ids of the kind
rows locked with `SELECT ... FOR UPDATE`. -/
structure KindUpsertResult where
  db : Db
  returned : List KindRow
  lockedIds : List Nat
  deriving DecidableEq

/-- The `unchanged_entity_kinds` probe (sync.py lines 394-405): existing
rows whose `(name, display_name)` pair exactly matches a requested kind. -/
def kindUnchanged (db : Db) (entityKinds : List KindInput) : List KindRow :=
  db.kinds.filter (fun r => decide ((r.name, r.displayName) ∈
    entityKinds.map (fun k => (k.name, k.displayName))))

/-- The `changed_entity_kinds` filter (sync.py lines 408-412): requested
kinds whose tuple was not found unchanged. -/
def kindChanged (db : Db) (entityKinds : List KindInput) : List KindInput :=
  entityKinds.filter (fun k => !decide ((k.name, k.displayName) ∈
    (kindUnchanged db entityKinds).map (fun r => (r.name, r.displayName))))

/-- `EntitySyncer.upsert_entity_kinds(entity_kinds)` (sync.py lines 383-434):
probe for rows whose `(name, display_name)` pair already matches exactly
(returned as unchanged), and when any kind remains changed, lock every
existing kind row (`EntityKind.all_objects.all() ... select_for_update()`,
line 420) and bulk-upsert only the changed kinds keyed on `name`, returning
the upserted rows followed by the unchanged rows. -/
def upsertEntityKinds (db : Db) (entityKinds : List KindInput) :
    KindUpsertResult :=
  if (kindChanged db entityKinds).isEmpty then
    { db := db, returned := kindUnchanged db entityKinds, lockedIds := [] }
  else
    let upsertOut := kindBulkUpsertGo (kindChanged db entityKinds) db.kinds
      db.nextKindId
    { db := { db with kinds := upsertOut.1, nextKindId := upsertOut.2 },
      returned := (kindChanged db entityKinds).filterMap
          (fun k => upsertOut.1.find? (fun r => r.name == k.name)) ++
        kindUnchanged db entityKinds,
      lockedIds := db.kinds.map (fun r => r.id) }

theorem kindBulkUpsertGo_preserves_other (changed : List KindInput) :
    ∀ (table : List KindRow) (nid : Nat) (r : KindRow), r ∈ table →
      r.name ∉ changed.map (fun k => k.name) →
      r ∈ (kindBulkUpsertGo changed table nid).1 := by
  induction changed with
  | nil => intro table nid r hr _; exact hr
  | cons k rest ih =>
    intro table nid r hr hname
    simp only [List.map_cons, List.mem_cons] at hname
    push_neg at hname
    rw [kindBulkUpsertGo]
    cases hfind : table.find? (fun r2 => r2.name == k.name) with
    | some r0 =>
      refine ih _ _ r ?_ (by simpa using hname.2)
      refine List.mem_map.2 ⟨r, hr, ?_⟩
      rw [if_neg (by intro h2; exact hname.1 (by rw [h2]))]
    | none =>
      exact ih _ _ r (List.mem_append_left _ hr) (by simpa using hname.2)

theorem kindBulkUpsertGo_preserves_id_name (changed : List KindInput) :
    ∀ (table : List KindRow) (nid : Nat) (r : KindRow), r ∈ table →
      ∃ r2 ∈ (kindBulkUpsertGo changed table nid).1,
        r2.id = r.id ∧ r2.name = r.name := by
  induction changed with
  | nil => intro table nid r hr; exact ⟨r, hr, rfl, rfl⟩
  | cons k rest ih =>
    intro table nid r hr
    rw [kindBulkUpsertGo]
    cases hfind : table.find? (fun r2 => r2.name == k.name) with
    | some r0 =>
      by_cases hn : r.name = k.name
      · obtain ⟨r2, hr2, hid, hname⟩ := ih
          (table.map (fun r3 => if r3.name = k.name
            then { r3 with displayName := k.displayName } else r3)) nid
          { r with displayName := k.displayName }
          (List.mem_map.2 ⟨r, hr, by rw [if_pos hn]⟩)
        exact ⟨r2, hr2, hid, hname⟩
      · obtain ⟨r2, hr2, hid, hname⟩ := ih
          (table.map (fun r3 => if r3.name = k.name
            then { r3 with displayName := k.displayName } else r3)) nid r
          (List.mem_map.2 ⟨r, hr, by rw [if_neg hn]⟩)
        exact ⟨r2, hr2, hid, hname⟩
    | none =>
      exact ih _ _ r (List.mem_append_left _ hr)

theorem kindBulkUpsertGo_achieves (changed : List KindInput)
    (hnodup : (changed.map (fun k => k.name)).Nodup) :
    ∀ (table : List KindRow) (nid : Nat) (k : KindInput), k ∈ changed →
      ∃ r ∈ (kindBulkUpsertGo changed table nid).1,
        r.name = k.name ∧ r.displayName = k.displayName := by
  induction changed with
  | nil => intro table nid k hk; exact absurd hk (List.not_mem_nil k)
  | cons k0 rest ih =>
    intro table nid k hk
    simp only [List.map_cons, List.nodup_cons] at hnodup
    rcases List.mem_cons.1 hk with rfl | hk2
    · -- the head kind: its row exists after the head step and no later step
      -- touches its name
      cases hfind : table.find? (fun r2 => r2.name == k.name) with
      | some r0 =>
        simp only [kindBulkUpsertGo, hfind]
        have hp : r0.name = k.name := by simpa using List.find?_some hfind
        have hr0 := List.mem_of_find?_eq_some hfind
        have hmem : ({ r0 with displayName := k.displayName } : KindRow) ∈
            (kindBulkUpsertGo rest (table.map (fun r => if r.name = k.name
              then { r with displayName := k.displayName } else r)) nid).1 := by
          refine kindBulkUpsertGo_preserves_other rest _ nid _
            (List.mem_map.2 ⟨r0, hr0, by rw [if_pos hp]⟩) ?_
          simpa [hp] using hnodup.1
        exact ⟨_, hmem, hp, rfl⟩
      | none =>
        simp only [kindBulkUpsertGo, hfind]
        refine ⟨{ id := nid, name := k.name, displayName := k.displayName },
          kindBulkUpsertGo_preserves_other rest _ _ _
            (List.mem_append_right _ (by simp)) (by simpa using hnodup.1),
          rfl, rfl⟩
    · cases hfind : table.find? (fun r2 => r2.name == k0.name) with
      | some r0 =>
        simp only [kindBulkUpsertGo, hfind]
        exact ih hnodup.2 _ nid k hk2
      | none =>
        simp only [kindBulkUpsertGo, hfind]
        exact ih hnodup.2 _ (nid + 1) k hk2

theorem kindBulkUpsertGo_named_stable (changed : List KindInput) :
    ∀ (table : List KindRow) (nid : Nat) (n : String),
      n ∉ changed.map (fun k => k.name) →
      ∀ r ∈ (kindBulkUpsertGo changed table nid).1, r.name = n → r ∈ table := by
  induction changed with
  | nil => intro table nid n _ r hr _; exact hr
  | cons k0 rest ih =>
    intro table nid n hn r hr hrn
    simp only [List.map_cons, List.mem_cons] at hn
    push_neg at hn
    cases hfind : table.find? (fun r2 => r2.name == k0.name) with
    | some r0 =>
      simp only [kindBulkUpsertGo, hfind] at hr
      have hr2 := ih _ nid n (by simpa using hn.2) r hr hrn
      rcases List.mem_map.1 hr2 with ⟨r3, hr3, heq⟩
      by_cases h3 : r3.name = k0.name
      · rw [if_pos h3] at heq
        exfalso
        apply hn.1
        rw [← hrn, ← heq]
        exact h3.symm ▸ rfl
      · rw [if_neg h3] at heq
        exact heq ▸ hr3
    | none =>
      simp only [kindBulkUpsertGo, hfind] at hr
      have hr2 := ih _ (nid + 1) n (by simpa using hn.2) r hr hrn
      rcases List.mem_append.1 hr2 with hr3 | hr3
      · exact hr3
      · exfalso
        apply hn.1
        rw [← hrn]
        simp only [List.mem_singleton] at hr3
        rw [hr3]

theorem kindBulkUpsertGo_all_named (changed : List KindInput)
    (hnodup : (changed.map (fun k => k.name)).Nodup) :
    ∀ (table : List KindRow) (nid : Nat) (k : KindInput), k ∈ changed →
      ∀ r ∈ (kindBulkUpsertGo changed table nid).1, r.name = k.name →
        r.displayName = k.displayName := by
  induction changed with
  | nil => intro table nid k hk; exact absurd hk (List.not_mem_nil k)
  | cons k0 rest ih =>
    intro table nid k hk r hr hrn
    simp only [List.map_cons, List.nodup_cons] at hnodup
    rcases List.mem_cons.1 hk with rfl | hk2
    · cases hfind : table.find? (fun r2 => r2.name == k.name) with
      | some r0 =>
        simp only [kindBulkUpsertGo, hfind] at hr
        have hstable := kindBulkUpsertGo_named_stable rest _ nid k.name
          (by simpa using hnodup.1) r hr hrn
        rcases List.mem_map.1 hstable with ⟨r3, hr3, heq⟩
        by_cases h3 : r3.name = k.name
        · rw [if_pos h3] at heq
          rw [← heq]
        · rw [if_neg h3] at heq
          exact absurd (heq ▸ hrn) h3
      | none =>
        simp only [kindBulkUpsertGo, hfind] at hr
        have hstable := kindBulkUpsertGo_named_stable rest _ (nid + 1) k.name
          (by simpa using hnodup.1) r hr hrn
        rcases List.mem_append.1 hstable with hr3 | hr3
        · exfalso
          have h4 := List.find?_eq_none.1 hfind r hr3
          simp only [beq_iff_eq] at h4
          exact h4 hrn
        · simp only [List.mem_singleton] at hr3
          rw [hr3]
    · cases hfind : table.find? (fun r2 => r2.name == k0.name) with
      | some r0 =>
        simp only [kindBulkUpsertGo, hfind] at hr
        exact ih hnodup.2 _ nid k hk2 r hr hrn
      | none =>
        simp only [kindBulkUpsertGo, hfind] at hr
        exact ih hnodup.2 _ (nid + 1) k hk2 r hr hrn

theorem upsertEntityKinds_pos (db : Db) (reqs : List KindInput)
    (hch : (kindChanged db reqs).isEmpty = true) :
    upsertEntityKinds db reqs =
      { db := db, returned := kindUnchanged db reqs, lockedIds := [] } := by
  simp only [upsertEntityKinds, if_pos hch]

theorem upsertEntityKinds_neg (db : Db) (reqs : List KindInput)
    (hch : ¬ (kindChanged db reqs).isEmpty = true) :
    upsertEntityKinds db reqs =
      { db := { db with
          kinds := (kindBulkUpsertGo (kindChanged db reqs) db.kinds
            db.nextKindId).1,
          nextKindId := (kindBulkUpsertGo (kindChanged db reqs) db.kinds
            db.nextKindId).2 },
        returned := (kindChanged db reqs).filterMap
            (fun k => (kindBulkUpsertGo (kindChanged db reqs) db.kinds
              db.nextKindId).1.find? (fun r => r.name == k.name)) ++
          kindUnchanged db reqs,
        lockedIds := db.kinds.map (fun r => r.id) } := by
  simp only [upsertEntityKinds, if_neg hch]

/-- C6 (amended): `upsert_entity_kinds` writes only changed kinds — every
requested kind whose `(name, display_name)` pair already exists is returned
as unchanged and its row is never written; only the remaining kinds are
upserted in one batch keyed on name with `display_name` as the sole update
field (ids and names of existing rows persist); the returned collection
holds a row for every requested kind tuple; when nothing changed no row is
locked, but when at least one kind changed the whole kind table is locked. -/
theorem upsert_entity_kinds_changed_only (db : Db) (reqs : List KindInput)
    (hnames : (reqs.map (fun k => k.name)).Nodup) :
    ((∀ k ∈ reqs, ∃ r ∈ db.kinds,
        r.name = k.name ∧ r.displayName = k.displayName) →
      (upsertEntityKinds db reqs).db = db ∧
        (upsertEntityKinds db reqs).lockedIds = []) ∧
    (∀ r ∈ db.kinds,
      (∃ k ∈ reqs, k.name = r.name ∧ k.displayName = r.displayName) →
      r ∈ (upsertEntityKinds db reqs).db.kinds ∧
        r ∈ (upsertEntityKinds db reqs).returned) ∧
    (∀ k ∈ reqs, ∃ r ∈ (upsertEntityKinds db reqs).returned,
      r.name = k.name ∧ r.displayName = k.displayName) ∧
    (∀ r ∈ db.kinds, ∃ r2 ∈ (upsertEntityKinds db reqs).db.kinds,
      r2.id = r.id ∧ r2.name = r.name) ∧
    ((upsertEntityKinds db reqs).lockedIds = [] ∨
      (upsertEntityKinds db reqs).lockedIds = db.kinds.map (fun r => r.id)) := by
  have hmatch_unchanged : ∀ r ∈ db.kinds,
      (∃ k ∈ reqs, k.name = r.name ∧ k.displayName = r.displayName) →
      r ∈ kindUnchanged db reqs := by
    rintro r hr ⟨k, hk, hn, hd⟩
    rw [kindUnchanged, List.mem_filter]
    refine ⟨hr, ?_⟩
    simp only [decide_eq_true_eq]
    exact List.mem_map.2 ⟨k, hk, by rw [hn, hd]⟩
  have hchanged_sub : ∀ k ∈ kindChanged db reqs, k ∈ reqs ∧
      (k.name, k.displayName) ∉
        (kindUnchanged db reqs).map (fun r => (r.name, r.displayName)) := by
    intro k hk
    rw [kindChanged, List.mem_filter] at hk
    refine ⟨hk.1, ?_⟩
    simpa using hk.2
  have hchanged_names : ∀ k2 ∈ kindChanged db reqs, ∀ r ∈ db.kinds,
      (∃ k ∈ reqs, k.name = r.name ∧ k.displayName = r.displayName) →
      k2.name ≠ r.name := by
    rintro k2 hk2 r hr hex heq
    obtain ⟨k, hk, hn, hd⟩ := hex
    obtain ⟨hk2r, hk2t⟩ := hchanged_sub k2 hk2
    have hkk : k2 = k :=
      List.inj_on_of_nodup_map hnames hk2r hk (by rw [heq, hn])
    apply hk2t
    refine List.mem_map.2 ⟨r, hmatch_unchanged r hr ⟨k, hk, hn, hd⟩, ?_⟩
    rw [hkk, hn, hd]
  by_cases hch : (kindChanged db reqs).isEmpty = true
  · have hchnil : kindChanged db reqs = [] := List.isEmpty_iff.1 hch
    rw [upsertEntityKinds_pos db reqs hch]
    refine ⟨fun _ => ⟨rfl, rfl⟩, ?_, ?_, ?_, Or.inl rfl⟩
    · intro r hr hex
      exact ⟨hr, hmatch_unchanged r hr hex⟩
    · intro k hk
      have hnotch : (k.name, k.displayName) ∈
          (kindUnchanged db reqs).map (fun r => (r.name, r.displayName)) := by
        have h2 := List.filter_eq_nil_iff.1 (by rw [← kindChanged]; exact hchnil)
          k hk
        simpa using h2
      rcases List.mem_map.1 hnotch with ⟨r, hrU, htup⟩
      have hn : r.name = k.name := congrArg Prod.fst htup
      have hd : r.displayName = k.displayName := congrArg Prod.snd htup
      exact ⟨r, hrU, hn, hd⟩
    · intro r hr
      exact ⟨r, hr, rfl, rfl⟩
  · rw [upsertEntityKinds_neg db reqs hch]
    have hchnodup : ((kindChanged db reqs).map (fun k => k.name)).Nodup := by
      refine List.Nodup.sublist ?_ hnames
      exact List.Sublist.map _ (List.filter_sublist _)
    refine ⟨?_, ?_, ?_, ?_, Or.inr rfl⟩
    · intro hall
      exfalso
      apply hch
      rw [List.isEmpty_iff, kindChanged, List.filter_eq_nil_iff]
      intro k hk
      simp only [Bool.not_eq_true', decide_eq_false_iff_not, Decidable.not_not]
      obtain ⟨r, hr, hn, hd⟩ := hall k hk
      exact List.mem_map.2
        ⟨r, hmatch_unchanged r hr ⟨k, hk, hn.symm, hd.symm⟩, by rw [hn, hd]⟩
    · intro r hr hex
      constructor
      · refine kindBulkUpsertGo_preserves_other _ _ _ r hr ?_
        intro hmem
        rcases List.mem_map.1 hmem with ⟨k2, hk2, heq⟩
        exact hchanged_names k2 hk2 r hr hex heq
      · exact List.mem_append_right _ (hmatch_unchanged r hr hex)
    · intro k hk
      by_cases hmemT : (k.name, k.displayName) ∈
          (kindUnchanged db reqs).map (fun r => (r.name, r.displayName))
      · rcases List.mem_map.1 hmemT with ⟨r, hrU, htup⟩
        exact ⟨r, List.mem_append_right _ hrU, congrArg Prod.fst htup,
          congrArg Prod.snd htup⟩
      · have hkch : k ∈ kindChanged db reqs := by
          rw [kindChanged, List.mem_filter]
          exact ⟨hk, by simpa using hmemT⟩
        obtain ⟨r0, hr0, hr0n, hr0d⟩ :=
          kindBulkUpsertGo_achieves (kindChanged db reqs) hchnodup db.kinds
            db.nextKindId k hkch
        have hsome : ((kindBulkUpsertGo (kindChanged db reqs) db.kinds
            db.nextKindId).1.find? (fun r => r.name == k.name)).isSome := by
          rw [List.find?_isSome]
          exact ⟨r0, hr0, by simpa using hr0n⟩
        cases hfind : (kindBulkUpsertGo (kindChanged db reqs) db.kinds
            db.nextKindId).1.find? (fun r => r.name == k.name) with
        | none => rw [hfind] at hsome; exact absurd hsome (by simp)
        | some r2 =>
          have hr2mem := List.mem_of_find?_eq_some hfind
          have hr2n : r2.name = k.name := by simpa using List.find?_some hfind
          have hr2d : r2.displayName = k.displayName :=
            kindBulkUpsertGo_all_named (kindChanged db reqs) hchnodup db.kinds
              db.nextKindId k hkch r2 hr2mem hr2n
          refine ⟨r2, List.mem_append_left _ ?_, hr2n, hr2d⟩
          exact List.mem_filterMap.2 ⟨k, hkch, hfind⟩
    · intro r hr
      exact kindBulkUpsertGo_preserves_id_name _ _ _ r hr

/-- Database for the C6 counterexample: one kind row `(1, "a", "A")`. -/
def kindCxDb : Db :=
  { kinds := [{ id := 1, name := "a", displayName := "A" }], entities := [],
    relationships := [], nextKindId := 2, nextEntityId := 1 }

/-- Requested kinds for the C6 counterexample: `("a", "A")` already exists
unchanged, `("b", "B")` is new. -/
def kindCxReqs : List KindInput :=
  [{ name := "a", displayName := "A" }, { name := "b", displayName := "B" }]

/-- Counterexample for C6: the requested kind `("a", "A")` exists unchanged
in the database (row id 1), yet because another requested kind changed, the
upsert locks row 1 too (the whole-table `select_for_update` at sync.py line
420) — refuting "returned as unchanged without any write or lock". -/
theorem upsert_entity_kinds_counterexample :
    ({ name := "a", displayName := "A" } : KindInput) ∈ kindCxReqs ∧
    ({ id := 1, name := "a", displayName := "A" } : KindRow) ∈ kindCxDb.kinds ∧
    (upsertEntityKinds kindCxDb kindCxReqs).lockedIds = [1] := by
  refine ⟨by simp [kindCxReqs], by simp [kindCxDb], ?_⟩
  rfl

/-- Witness for C6: a request matching the database exactly writes nothing
and locks nothing. -/
theorem upsert_entity_kinds_changed_only_witness :
    (upsertEntityKinds kindCxDb [{ name := "a", displayName := "A" }]).db =
        kindCxDb ∧
    (upsertEntityKinds kindCxDb
        [{ name := "a", displayName := "A" }]).lockedIds = [] :=
  (upsert_entity_kinds_changed_only kindCxDb
      [{ name := "a", displayName := "A" }] (by simp)).1
    (by
      intro k hk
      simp only [List.mem_singleton] at hk
      exact ⟨{ id := 1, name := "a", displayName := "A" },
        by simp [kindCxDb], by rw [hk], by rw [hk]⟩)

/-!
## The sync orchestrator (`EntitySyncer.sync`, sync.py lines 235-381)

Content types are identified with their ids and with the model classes they
describe.  A source model instance carries its id and an abstract payload.
-/

/-- A source model instance (`model_obj`): primary key plus a payload that
distinguishes different versions of the same row. -/
structure MObj where
  id : Nat
  data : Nat
  deriving DecidableEq

/-- The registered configuration of one source type: its (optionally
optimized) queryset — the current contents of the source table as that
queryset sees them — and the `EntityConfig` interface methods.
`getSuperEntities` returns the `model_class -> [(sub_id, super_id)]` mapping
of `get_super_entities(model_objs, sync_all)`, model classes encoded as
content-type ids. -/
structure SyncConfig where
  queryset : List MObj
  getEntityKind : MObj → String × String
  getDisplayName : MObj → String
  getEntityMeta : MObj → Option Nat
  getIsActive : MObj → Bool
  getSuperEntities : List MObj → Bool → List (Nat × List (Nat × Nat))

/-- `entity_registry.entity_registry` as an association list in registration
order. -/
abbrev Registry := List (Nat × SyncConfig)

/-- Python exceptions escaping the sync pass: a `KeyError` from a dict
lookup, or an `AttributeError` from `entity_registry.get(...)` returning
`None` for an unregistered content type. -/
inductive SyncError where
  | keyError
  | missingConfig
  deriving DecidableEq

/-- `model_objs_map`: keyed on `(ctype, model_obj.id)`. -/
abbrev ObjsMap := List ((Nat × Nat) × MObj)

/-- `model_objs_by_ctype`: a defaultdict of lists. -/
abbrev ByCtype := List (Nat × List MObj)

/-- `model_ids_to_sync`: a defaultdict of sets. -/
abbrev IdsMap := List (Nat × List Nat)

/-- `super_entities_by_ctype`: sub ctype -> super ctype -> edge list. -/
abbrev SuperMap := List (Nat × List (Nat × List (Nat × Nat)))

/-- Append an object to `model_objs_by_ctype[ctype]`. -/
def byCtypeAdd (g : ByCtype) (c : Nat) (o : MObj) : ByCtype :=
  assocUpsert g c (assocGetD g c [] ++ [o])

/-- `model_ids_to_sync[ctype].add(i)`. -/
def idsAdd (m : IdsMap) (c : Nat) (i : Nat) : IdsMap :=
  assocUpsert m c (setAdd (assocGetD m c []) i)

/-- `entity_registry.entity_registry.get(ctype.model_class())`, which is
`None` (and fails on attribute access) for unregistered types. -/
def regGet (registry : Registry) (c : Nat) : Except SyncError SyncConfig :=
  match assocFind c registry with
  | some cfg => Except.ok cfg
  | none => Except.error SyncError.missingConfig

/-- The Collect phase (sync.py lines 256-282): build `model_objs_map` from
the passed instances (or from every registered queryset when syncing all),
group it by content type, and seed `model_ids_to_sync`. -/
def collectPhase (registry : Registry) (modelObjs : List (Nat × MObj)) :
    ObjsMap × ByCtype × IdsMap :=
  let syncAll := modelObjs.isEmpty
  let map0 : ObjsMap :=
    modelObjs.foldl (fun m p => assocUpsert m (p.1, p.2.id) p.2) []
  let map1 := if syncAll then
      registry.foldl (fun m rc =>
        rc.2.queryset.foldl (fun m2 o => assocUpsert m2 (rc.1, o.id) o) m) map0
    else map0
  let byCtype := map1.foldl (fun g kv => byCtypeAdd g kv.1.1 kv.2) []
  let ids := map1.foldl (fun s kv => idsAdd s kv.1.1 kv.2.id) []
  (map1, byCtype, ids)

/-- The id bookkeeping of `_get_super_entities_by_ctype` (sync.py lines
131-135): every id mentioned as sub or super in the resolved relationships
of one sub content type is added to the to-sync set. -/
def addSuperRelIds (subCtype : Nat) (supers : List (Nat × List (Nat × Nat)))
    (ids : IdsMap) : IdsMap :=
  supers.foldl (fun acc sc =>
    sc.2.foldl (fun acc2 p => idsAdd (idsAdd acc2 subCtype p.1) sc.1 p.2) acc)
    ids

/-- `_get_super_entities_by_ctype` (sync.py lines 114-137): one pass over the
content types of `model_objs_by_ctype`, invoking each type's
`get_super_entities` exactly once and accumulating `super_entities_by_ctype`
and the updated `model_ids_to_sync`. -/
def expandPhase (registry : Registry) :
    ByCtype → IdsMap → Bool → SuperMap → Except SyncError (SuperMap × IdsMap)
  | [], ids, _, acc => Except.ok (acc, ids)
  | co :: rest, ids, syncAll, acc =>
    match regGet registry co.1 with
    | Except.error e => Except.error e
    | Except.ok cfg =>
      expandPhase registry rest
        (addSuperRelIds co.1 (cfg.getSuperEntities co.2 syncAll) ids) syncAll
        (acc ++ [(co.1, cfg.getSuperEntities co.2 syncAll)])

/-- `_fetch_entity_models` (sync.py lines 140-169): for each content type,
re-fetch the unfetched ids (all of them on a partial sync) through the
registered queryset and append what was found to `model_objs_map` and
`model_objs_by_ctype`.  Ids the queryset does not return are silently
absent. -/
def fetchPhase (registry : Registry) :
    IdsMap → ObjsMap → ByCtype → Bool → Except SyncError (ObjsMap × ByCtype)
  | [], map, byCtype, _ => Except.ok (map, byCtype)
  | ci :: rest, map, byCtype, syncAll =>
    let fetchedIds := (assocGetD byCtype ci.1 []).map (fun o => o.id)
    let unfetched := if syncAll
      then ci.2.filter (fun i => !decide (i ∈ fetchedIds)) else ci.2
    if unfetched.isEmpty then fetchPhase registry rest map byCtype syncAll
    else match regGet registry ci.1 with
      | Except.error e => Except.error e
      | Except.ok cfg =>
        let fetched := cfg.queryset.filter (fun o => decide (o.id ∈ unfetched))
        fetchPhase registry rest
          (fetched.foldl (fun m o => assocUpsert m (ci.1, o.id) o) map)
          (fetched.foldl (fun g o => byCtypeAdd g ci.1 o) byCtype) syncAll

/-- The dict lookups `model_objs_map[ctype, model_id]` of
`_get_model_objs_to_sync` (sync.py lines 180-184): a plain `KeyError` when
an id has no object in the map. -/
def lookupObjs (map : ObjsMap) (c : Nat) : List Nat → Except SyncError (List MObj)
  | [] => Except.ok []
  | i :: rest =>
    match assocFind (c, i) map with
    | none => Except.error SyncError.keyError
    | some o =>
      match lookupObjs map c rest with
      | Except.error e => Except.error e
      | Except.ok os => Except.ok (o :: os)

/-- `_get_model_objs_to_sync` after the fetch (sync.py lines 172-186). -/
def getModelObjsToSync (map : ObjsMap) :
    IdsMap → Except SyncError (List (Nat × List MObj))
  | [] => Except.ok []
  | ci :: rest =>
    match lookupObjs map ci.1 ci.2 with
    | Except.error e => Except.error e
    | Except.ok objs =>
      match getModelObjsToSync map rest with
      | Except.error e => Except.error e
      | Except.ok more => Except.ok ((ci.1, objs) :: more)

/-- `entity_kind_tuples_to_sync` (sync.py lines 294-299): the set of
`get_entity_kind` tuples over every model object to sync. -/
def entityKindTuplesPhase (registry : Registry) :
    List (Nat × List MObj) → List (String × String) →
    Except SyncError (List (String × String))
  | [], acc => Except.ok acc
  | co :: rest, acc =>
    match regGet registry co.1 with
    | Except.error e => Except.error e
    | Except.ok cfg =>
      entityKindTuplesPhase registry rest
        (co.2.foldl (fun s o => setAdd s (cfg.getEntityKind o)) acc)

/-- `entity_kinds_map` (sync.py lines 312-316). -/
def kindsMapOf (rows : List KindRow) : List (String × KindRow) :=
  rows.foldl (fun m r => assocUpsert m r.name r) []

/-- An unsaved `Entity(...)` instance built at sync.py lines 322-332. -/
structure EntityInput where
  entityTypeId : Nat
  entityId : Nat
  entityKindId : Nat
  entityMeta : Option Nat
  displayName : String
  isActive : Bool
  deriving DecidableEq

/-- Build the `Entity` instances for one content type (sync.py lines
322-332); the kind-map lookup `entity_kinds_map[...]` raises `KeyError`
when absent. -/
def buildEntitiesForCtype (cfg : SyncConfig) (c : Nat)
    (kindsMap : List (String × KindRow)) :
    List MObj → Except SyncError (List EntityInput)
  | [] => Except.ok []
  | o :: rest =>
    match assocFind (cfg.getEntityKind o).1 kindsMap with
    | none => Except.error SyncError.keyError
    | some kr =>
      match buildEntitiesForCtype cfg c kindsMap rest with
      | Except.error e => Except.error e
      | Except.ok more => Except.ok
        ({ entityTypeId := c, entityId := o.id, entityKindId := kr.id,
           entityMeta := cfg.getEntityMeta o,
           displayName := cfg.getDisplayName o,
           isActive := cfg.getIsActive o } :: more)

/-- `entities_to_upsert` over all content types (sync.py lines 319-332). -/
def buildEntitiesPhase (registry : Registry)
    (kindsMap : List (String × KindRow)) :
    List (Nat × List MObj) → Except SyncError (List EntityInput)
  | [] => Except.ok []
  | co :: rest =>
    match regGet registry co.1 with
    | Except.error e => Except.error e
    | Except.ok cfg =>
      match buildEntitiesForCtype cfg co.1 kindsMap co.2 with
      | Except.error e => Except.error e
      | Except.ok ents =>
        match buildEntitiesPhase registry kindsMap rest with
        | Except.error e => Except.error e
        | Except.ok more => Except.ok (ents ++ more)

/-- The batched `manager_utils` upsert on `Entity` keyed on
`(entity_type_id, entity_id)` with update fields `entity_kind_id`,
`entity_meta`, `display_name`, `is_active` and `return_upserts=True`:
process the instances in order, updating matching rows in place (the
surrogate id, type and entity id persist) and inserting rows for new keys;
also accumulate the returned upserted rows. -/
def applyEntityUpdate (e : EntityInput) (r0 : EntityRow) : EntityRow :=
  { r0 with
    entityKindId := e.entityKindId
    entityMeta := e.entityMeta
    displayName := e.displayName
    isActive := e.isActive }

def newEntityRow (e : EntityInput) (nid : Nat) : EntityRow :=
  { id := nid
    entityTypeId := e.entityTypeId
    entityId := e.entityId
    entityKindId := e.entityKindId
    entityMeta := e.entityMeta
    displayName := e.displayName
    isActive := e.isActive }

def entityUpsertGo :
    List EntityInput → List EntityRow → Nat → List EntityRow →
    List EntityRow × Nat × List EntityRow
  | [], table, nid, ups => (table, nid, ups)
  | e :: rest, table, nid, ups =>
    match table.find? (fun r =>
        r.entityTypeId == e.entityTypeId && r.entityId == e.entityId) with
    | some r0 =>
      entityUpsertGo rest
        (table.map (fun r => if r.id = r0.id then applyEntityUpdate e r0 else r))
        nid (ups ++ [applyEntityUpdate e r0])
    | none =>
      entityUpsertGo rest (table ++ [newEntityRow e nid]) (nid + 1)
        (ups ++ [newEntityRow e nid])

/-- The outcome of `upsert_entities`: the updated database, the returned
upserted rows, and the changed activation state. -/
structure EntityUpsertResult where
  db : Db
  upserted : List EntityRow
  changed : List (Nat × Bool)
  deriving DecidableEq

/-- `EntitySyncer.upsert_entities(entities, sync)` (sync.py lines 436-533):
record the initial activation state (of the whole table when `sync`,
otherwise of the rows whose `(entity_type_id, entity_id)` is among the
submitted keys), upsert the entities (`manager_utils.sync` deletes the rows
whose key was not submitted when `sync=True`; `bulk_upsert` deletes
nothing), and diff the activation state. -/
def upsertEntities (db : Db) (entities : List EntityInput) (sync : Bool) :
    EntityUpsertResult :=
  let keys := entities.map (fun e => (e.entityTypeId, e.entityId))
  let initialRows := if sync then db.entities
    else db.entities.filter (fun r =>
      decide ((r.entityTypeId, r.entityId) ∈ keys))
  let initialState := initialRows.map (fun r => (r.id, r.isActive))
  let out := entityUpsertGo entities db.entities db.nextEntityId []
  let table2 := if sync then
      out.1.filter (fun r => decide ((r.entityTypeId, r.entityId) ∈ keys))
    else out.1
  let currentState := out.2.2.map (fun r => (r.id, r.isActive))
  { db := { db with entities := table2, nextEntityId := out.2.1 },
    upserted := out.2.2,
    changed := changedEntityActivationState initialState currentState }

/-- `EntitySyncer.upsert_entity_relationships(queryset, entity_relationships)`
(sync.py lines 535-557) with `manager_utils.sync` semantics: within the
caller's queryset scope (`None` means the whole relationship table, `some
ids` means `sub_entity_id__in=ids`, sync.py lines 370-375), keep the rows
whose `(sub, super)` key was submitted, delete the rest of the scope, and
insert the submitted pairs that do not exist yet. -/
def upsertEntityRelationships (db : Db) (scopeIds : Option (List Nat))
    (rels : List (Nat × Nat)) : Db :=
  let inScope : Nat × Nat → Bool := fun r =>
    match scopeIds with
    | none => true
    | some ids => decide (r.1 ∈ ids)
  let kept := db.relationships.filter (fun r => !inScope r || decide (r ∈ rels))
  let inserts := rels.foldl (fun acc p =>
    if decide (p ∈ db.relationships) || decide (p ∈ acc) then acc
    else acc ++ [p]) []
  { db with relationships := kept ++ inserts }

/-- `entity_relationships_to_sync` (sync.py lines 349-359): one edge per
resolved relationship whose two endpoints both exist in `entities_map`;
edges with a missing endpoint are skipped. -/
def relationshipsToSync (supers : SuperMap)
    (entitiesMap : List ((Nat × Nat) × EntityRow)) : List (Nat × Nat) :=
  supers.foldl (fun acc sm =>
    sm.2.foldl (fun acc2 sc =>
      sc.2.foldl (fun acc3 p =>
        match assocFind (sm.1, p.1) entitiesMap,
            assocFind (sc.1, p.2) entitiesMap with
        | some se, some pe => acc3 ++ [(se.id, pe.id)]
        | _, _ => acc3) acc2) acc) []

/-- `original_entity_ids` (sync.py lines 361-368): the entity row ids of
every object in `model_objs_by_ctype` — which, by this point of the pass,
also contains the super entities fetched by `_fetch_entity_models`. -/
def originalIdsOf (byCtype : ByCtype)
    (entitiesMap : List ((Nat × Nat) × EntityRow)) : List Nat :=
  byCtype.foldl (fun acc co =>
    co.2.foldl (fun a o =>
      match assocFind (co.1, o.id) entitiesMap with
      | some er => a ++ [er.id]
      | none => a) acc) []

/-- The outcome of one sync pass: the final database, the activation events
sent, and the `original_entity_ids` used to scope the relationship sync. -/
structure SyncResult where
  db : Db
  events : List (List Nat × Bool)
  originalEntityIds : List Nat
  deriving DecidableEq

/-- `EntitySyncer.sync()` (sync.py lines 251-381): Collect, ExpandSupers
(one pass), FetchRows, ResolveKinds, UpsertEntities (`sync` only on a full
sync), EmitEvents, UpsertRelationships (`sync` always, scoped to the whole
table on a full sync and to `sub_entity_id__in=original_entity_ids`
otherwise). -/
def syncRun (registry : Registry) (db : Db) (modelObjs : List (Nat × MObj)) :
    Except SyncError SyncResult :=
  let syncAll := modelObjs.isEmpty
  let collect := collectPhase registry modelObjs
  match expandPhase registry collect.2.1 collect.2.2 syncAll [] with
  | Except.error e => Except.error e
  | Except.ok (supersByCtype, idsToSync) =>
    match fetchPhase registry idsToSync collect.1 collect.2.1 syncAll with
    | Except.error e => Except.error e
    | Except.ok (map2, byCtype2) =>
      match getModelObjsToSync map2 idsToSync with
      | Except.error e => Except.error e
      | Except.ok modelObjsToSync =>
        match entityKindTuplesPhase registry modelObjsToSync [] with
        | Except.error e => Except.error e
        | Except.ok kindTuples =>
          let kindsOut := upsertEntityKinds db
            (kindTuples.map (fun t => { name := t.1, displayName := t.2 }))
          match buildEntitiesPhase registry (kindsMapOf kindsOut.returned)
              modelObjsToSync with
          | Except.error e => Except.error e
          | Except.ok entitiesToUpsert =>
            let entOut := upsertEntities kindsOut.db entitiesToUpsert syncAll
            let entitiesMap := entOut.upserted.foldl
              (fun m r => assocUpsert m (r.entityTypeId, r.entityId) r) []
            let originalEntityIds := originalIdsOf byCtype2 entitiesMap
            Except.ok
              { db := upsertEntityRelationships entOut.db
                  (if syncAll then none else some originalEntityIds)
                  (relationshipsToSync supersByCtype entitiesMap),
                events := sendEntityActivationEvents entOut.changed,
                originalEntityIds := originalEntityIds }

theorem idsAdd_mono {m : IdsMap} {c2 i : Nat} (c x : Nat)
    (h : i ∈ assocGetD m c2 []) : i ∈ assocGetD (idsAdd m c x) c2 [] := by
  by_cases hc : c = c2
  · subst hc
    simp only [idsAdd, assocGetD, assocFind_upsert_self, Option.getD_some]
    exact mem_setAdd_of_mem x (by simpa [assocGetD] using h)
  · simp only [idsAdd, assocGetD,
      assocFind_upsert_other _ _ _ _ (Ne.symm hc)]
    simpa [assocGetD] using h

theorem idsAdd_self (m : IdsMap) (c x : Nat) :
    x ∈ assocGetD (idsAdd m c x) c [] := by
  simp only [idsAdd, assocGetD, assocFind_upsert_self, Option.getD_some]
  exact mem_setAdd_self _ x

theorem relFold_mono (subC supC : Nat) (rels : List (Nat × Nat)) :
    ∀ (acc : IdsMap) (c i : Nat), i ∈ assocGetD acc c [] →
      i ∈ assocGetD (rels.foldl
        (fun acc2 p => idsAdd (idsAdd acc2 subC p.1) supC p.2) acc) c [] := by
  induction rels with
  | nil => exact fun acc c i h => h
  | cons p rest ih =>
    intro acc c i h
    exact ih _ c i (idsAdd_mono supC p.2 (idsAdd_mono subC p.1 h))

theorem relFold_adds (subC supC : Nat) (rels : List (Nat × Nat)) :
    ∀ (acc : IdsMap) (p : Nat × Nat), p ∈ rels →
      p.1 ∈ assocGetD (rels.foldl
        (fun acc2 p2 => idsAdd (idsAdd acc2 subC p2.1) supC p2.2) acc) subC [] ∧
      p.2 ∈ assocGetD (rels.foldl
        (fun acc2 p2 => idsAdd (idsAdd acc2 subC p2.1) supC p2.2) acc) supC [] := by
  induction rels with
  | nil => intro acc p hp; exact absurd hp (List.not_mem_nil p)
  | cons p0 rest ih =>
    intro acc p hp
    rcases List.mem_cons.1 hp with rfl | h2
    · constructor
      · exact relFold_mono subC supC rest _ subC p.1
          (idsAdd_mono supC p.2 (idsAdd_self acc subC p.1))
      · exact relFold_mono subC supC rest _ supC p.2
          (idsAdd_self (idsAdd acc subC p.1) supC p.2)
    · exact ih _ p h2

theorem addSuperRelIds_mono (subC : Nat)
    (supers : List (Nat × List (Nat × Nat))) :
    ∀ (acc : IdsMap) (c i : Nat), i ∈ assocGetD acc c [] →
      i ∈ assocGetD (addSuperRelIds subC supers acc) c [] := by
  induction supers with
  | nil => exact fun acc c i h => h
  | cons sc rest ih =>
    intro acc c i h
    exact ih _ c i (relFold_mono subC sc.1 sc.2 acc c i h)

theorem addSuperRelIds_adds (subC : Nat)
    (supers : List (Nat × List (Nat × Nat))) :
    ∀ (acc : IdsMap) (supC : Nat) (rels : List (Nat × Nat)),
      (supC, rels) ∈ supers → ∀ p ∈ rels,
      p.1 ∈ assocGetD (addSuperRelIds subC supers acc) subC [] ∧
      p.2 ∈ assocGetD (addSuperRelIds subC supers acc) supC [] := by
  induction supers with
  | nil => intro acc supC rels hmem; exact absurd hmem (List.not_mem_nil _)
  | cons sc rest ih =>
    intro acc supC rels hmem p hp
    rcases List.mem_cons.1 hmem with heq | h2
    · subst heq
      have hadded := relFold_adds subC supC rels acc p hp
      exact ⟨addSuperRelIds_mono subC rest _ subC p.1 hadded.1,
        addSuperRelIds_mono subC rest _ supC p.2 hadded.2⟩
    · exact ih _ supC rels h2 p hp

theorem expandPhase_ind (registry : Registry) :
    ∀ (byCtype : ByCtype) (ids : IdsMap) (syncAll : Bool) (acc : SuperMap)
      (supers : SuperMap) (ids2 : IdsMap),
      expandPhase registry byCtype ids syncAll acc = Except.ok (supers, ids2) →
      (∀ c i, i ∈ assocGetD ids c [] → i ∈ assocGetD ids2 c []) ∧
      (∀ subC sm, (subC, sm) ∈ supers → (subC, sm) ∈ acc ∨
        ∀ supC rels, (supC, rels) ∈ sm → ∀ p ∈ rels,
          p.1 ∈ assocGetD ids2 subC [] ∧ p.2 ∈ assocGetD ids2 supC []) ∧
      supers.map Prod.fst = acc.map Prod.fst ++ byCtype.map Prod.fst := by
  intro byCtype
  induction byCtype with
  | nil =>
    intro ids syncAll acc supers ids2 h
    simp only [expandPhase, Except.ok.injEq, Prod.mk.injEq] at h
    obtain ⟨rfl, rfl⟩ := h
    exact ⟨fun c i hi => hi, fun subC sm hmem => Or.inl hmem, by simp⟩
  | cons co rest ih =>
    intro ids syncAll acc supers ids2 h
    rw [expandPhase] at h
    cases hreg : regGet registry co.1 with
    | error e => rw [hreg] at h; exact absurd h (by simp)
    | ok cfg =>
      rw [hreg] at h
      obtain ⟨hmono, hsup, hkeys⟩ := ih _ syncAll _ supers ids2 h
      refine ⟨?_, ?_, ?_⟩
      · intro c i hi
        exact hmono c i
          (addSuperRelIds_mono co.1 (cfg.getSuperEntities co.2 syncAll)
            ids c i hi)
      · intro subC sm hmem
        rcases hsup subC sm hmem with hacc | hedges
        · rcases List.mem_append.1 hacc with hacc2 | hacc2
          · exact Or.inl hacc2
          · simp only [List.mem_singleton, Prod.mk.injEq] at hacc2
            obtain ⟨rfl, rfl⟩ := hacc2
            refine Or.inr ?_
            intro supC rels hrels p hp
            have hadded := addSuperRelIds_adds co.1
              (cfg.getSuperEntities co.2 syncAll) ids supC rels hrels p hp
            exact ⟨hmono _ _ hadded.1, hmono _ _ hadded.2⟩
        · exact Or.inr hedges
      · rw [hkeys]
        simp

/-- C1 (amended): the ExpandSupers phase invokes the Super-Entity Resolver
exactly once per content type of the initially collected instances (a single
pass — `supers` has one entry per collected content type, in order); every
id mentioned as sub or super in a resolved relationship is added to the
to-sync set, so the set is closed one hop under super-entity resolution
(both endpoints of every resolved edge are slated for sync before rows are
fetched), and no already-slated id is dropped; but super entities of the
newly discovered super entities are not themselves resolved, so the set is
not transitively closed. -/
theorem expand_supers_single_pass (registry : Registry) (byCtype : ByCtype)
    (ids : IdsMap) (syncAll : Bool) (supers : SuperMap) (ids2 : IdsMap)
    (h : expandPhase registry byCtype ids syncAll [] =
      Except.ok (supers, ids2)) :
    (∀ c i, i ∈ assocGetD ids c [] → i ∈ assocGetD ids2 c []) ∧
    (∀ subC sm, (subC, sm) ∈ supers →
      ∀ supC rels, (supC, rels) ∈ sm → ∀ p ∈ rels,
        p.1 ∈ assocGetD ids2 subC [] ∧ p.2 ∈ assocGetD ids2 supC []) ∧
    supers.map Prod.fst = byCtype.map Prod.fst := by
  obtain ⟨hmono, hsup, hkeys⟩ :=
    expandPhase_ind registry byCtype ids syncAll [] supers ids2 h
  refine ⟨hmono, ?_, by simpa using hkeys⟩
  intro subC sm hmem supC rels hrels p hp
  rcases hsup subC sm hmem with hacc | hedges
  · exact absurd hacc (List.not_mem_nil _)
  · exact hedges supC rels hrels p hp

/-- Counterexample setup for C1 and C3 — test-project shape: an `Account`
(ctype 0, id 1) whose super entity is a `Team` (ctype 1, id 10), which in
turn has a `TeamGroup` super (ctype 2, id 20) per the Team config's
resolver. -/
def accountCfg : SyncConfig :=
  { queryset := [{ id := 1, data := 0 }]
    getEntityKind := fun _ => ("account", "Account")
    getDisplayName := fun _ => "a"
    getEntityMeta := fun _ => none
    getIsActive := fun _ => true
    getSuperEntities := fun _ _ => [(1, [(1, 10)])] }

def teamCfg : SyncConfig :=
  { queryset := [{ id := 10, data := 0 }]
    getEntityKind := fun _ => ("team", "Team")
    getDisplayName := fun _ => "t"
    getEntityMeta := fun _ => none
    getIsActive := fun _ => true
    getSuperEntities := fun _ _ => [(2, [(10, 20)])] }

def teamGroupCfg : SyncConfig :=
  { queryset := [{ id := 20, data := 0 }]
    getEntityKind := fun _ => ("teamgroup", "TeamGroup")
    getDisplayName := fun _ => "g"
    getEntityMeta := fun _ => none
    getIsActive := fun _ => true
    getSuperEntities := fun _ _ => [] }

def demoRegistry : Registry := [(0, accountCfg), (1, teamCfg), (2, teamGroupCfg)]

/-- Counterexample for C1: partially syncing only the account runs the
Super-Entity Resolver once for the account's content type only; the team
(id 10, ctype 1) is added to the to-sync set, and the Team config's resolver
would report the team group (id 20, ctype 2) as the team's super entity, but
the resolver is never invoked again, so id 20 is missing from the to-sync
set when rows are fetched — the set is not transitively closed. -/
theorem expand_supers_counterexample :
    expandPhase demoRegistry
        (collectPhase demoRegistry [(0, { id := 1, data := 0 })]).2.1
        (collectPhase demoRegistry [(0, { id := 1, data := 0 })]).2.2
        false [] =
      Except.ok ([(0, [(1, [(1, 10)])])], [(0, [1]), (1, [10])]) ∧
    teamCfg.getSuperEntities [{ id := 10, data := 0 }] false =
      [(2, [(10, 20)])] ∧
    (10 : Nat) ∈ assocGetD ([(0, [1]), (1, [10])] : IdsMap) 1 [] ∧
    (20 : Nat) ∉ assocGetD ([(0, [1]), (1, [10])] : IdsMap) 2 [] := by
  refine ⟨rfl, rfl, by decide, by decide⟩

/-- Witness for C1 (amended): on the same partial sync, both endpoints of
the account's resolved edge — the account id under ctype 0 and the team id
under ctype 1 — are slated for sync. -/
theorem expand_supers_single_pass_witness :
    (1 : Nat) ∈ assocGetD ([(0, [1]), (1, [10])] : IdsMap) 0 [] ∧
    (10 : Nat) ∈ assocGetD ([(0, [1]), (1, [10])] : IdsMap) 1 [] := by
  have h := expand_supers_single_pass demoRegistry
    (collectPhase demoRegistry [(0, { id := 1, data := 0 })]).2.1
    (collectPhase demoRegistry [(0, { id := 1, data := 0 })]).2.2
    false [(0, [(1, [(1, 10)])])] [(0, [1]), (1, [10])] rfl
  exact h.2.1 0 [(1, [(1, 10)])] (by decide) 1 [(1, 10)] (by decide)
    (1, 10) (by decide)

/-- Setup for C2: the account's resolver names team id 99 as its super
entity, but the Team queryset holds only team id 10 — id 99 has vanished
(deleted or never committed by a concurrent writer). -/
def c2AccountCfg : SyncConfig :=
  { queryset := [{ id := 1, data := 0 }]
    getEntityKind := fun _ => ("account", "Account")
    getDisplayName := fun _ => "a"
    getEntityMeta := fun _ => none
    getIsActive := fun _ => true
    getSuperEntities := fun _ _ => [(1, [(1, 99)])] }

def c2Registry : Registry := [(0, c2AccountCfg), (1, teamCfg)]

def c2Db : Db :=
  { kinds := [], entities := [], relationships := [], nextKindId := 1,
    nextEntityId := 1 }

/-- C2 (failing input): syncing the account whose resolved super-entity id
99 is not found during the fetch phase makes the pass raise a `KeyError`
from the unguarded `model_objs_map[ctype, model_id]` lookup at sync.py lines
181-184, instead of dropping the id and completing — the drop guards at
sync.py lines 358 and 367 are never reached. -/
theorem vanished_super_keyerror :
    syncRun c2Registry c2Db [(0, { id := 1, data := 0 })] =
      Except.error SyncError.keyError := by
  rfl

/-- The prior mirror database for the C3 counterexample: the three entities
are mirrored (account row 100, team row 101, team group row 102) and the
relationship (team 101 → group 102) exists. -/
def c3Db : Db :=
  { kinds := [{ id := 1, name := "account", displayName := "Account" },
              { id := 2, name := "team", displayName := "Team" },
              { id := 3, name := "teamgroup", displayName := "TeamGroup" }]
    entities := [
      { id := 100, entityTypeId := 0, entityId := 1, entityKindId := 1,
        entityMeta := none, displayName := "a", isActive := true },
      { id := 101, entityTypeId := 1, entityId := 10, entityKindId := 2,
        entityMeta := none, displayName := "t", isActive := true },
      { id := 102, entityTypeId := 2, entityId := 20, entityKindId := 3,
        entityMeta := none, displayName := "g", isActive := true }]
    relationships := [(101, 102)]
    nextKindId := 4
    nextEntityId := 103 }

/-- The Entity row ids of the instances explicitly passed to
`sync_entities` — the original request set of a partial sync, as the claim
uses the term. -/
def requestEntityIds (db : Db) (objs : List (Nat × MObj)) : List Nat :=
  objs.filterMap (fun p => (db.entities.find? (fun r =>
    r.entityTypeId == p.1 && r.entityId == p.2.id)).map (fun r => r.id))

def c3Run : Except SyncError SyncResult :=
  syncRun demoRegistry c3Db [(0, { id := 1, data := 0 })]

def c3Res : SyncResult :=
  c3Run.toOption.getD { db := c3Db, events := [], originalEntityIds := [] }

/-- Counterexample for C3: the partial sync of the account alone completes
and deletes the relationship (101, 102), whose sub-entity 101 is the team's
entity row — an entity that is not in the original request set (the request
set's only entity row id is 100).  The deletion scope is
`original_entity_ids`, which includes the super entities fetched during the
pass, not just the requested instances. -/
theorem partial_sync_frame_counterexample :
    c3Run = Except.ok c3Res ∧
    (101, 102) ∈ c3Db.relationships ∧
    (101, 102) ∉ c3Res.db.relationships ∧
    (101 : Nat) ∉ requestEntityIds c3Db [(0, { id := 1, data := 0 })] := by
  refine ⟨rfl, by decide, by decide, by decide⟩

theorem upsertEntityKinds_frame (db : Db) (reqs : List KindInput) :
    (upsertEntityKinds db reqs).db.entities = db.entities ∧
    (upsertEntityKinds db reqs).db.relationships = db.relationships ∧
    (upsertEntityKinds db reqs).db.nextEntityId = db.nextEntityId := by
  by_cases hch : (kindChanged db reqs).isEmpty = true
  · rw [upsertEntityKinds_pos db reqs hch]
    exact ⟨rfl, rfl, rfl⟩
  · rw [upsertEntityKinds_neg db reqs hch]
    exact ⟨rfl, rfl, rfl⟩

theorem upsertEntities_relationships_frame (db : Db)
    (ents : List EntityInput) (sync : Bool) :
    (upsertEntities db ents sync).db.relationships = db.relationships := rfl

theorem upsertEntities_partial_entities (db : Db) (ents : List EntityInput) :
    (upsertEntities db ents false).db.entities =
      (entityUpsertGo ents db.entities db.nextEntityId []).1 := rfl

theorem upsertEntityRelationships_entities_frame (db : Db)
    (scopeIds : Option (List Nat)) (rels : List (Nat × Nat)) :
    (upsertEntityRelationships db scopeIds rels).entities = db.entities := rfl

theorem upsertEntityRelationships_deleted (db : Db) (ids : List Nat)
    (rels : List (Nat × Nat)) (e : Nat × Nat) (he : e ∈ db.relationships)
    (hne : e ∉ (upsertEntityRelationships db (some ids) rels).relationships) :
    e.1 ∈ ids := by
  by_contra hnotin
  apply hne
  simp only [upsertEntityRelationships]
  refine List.mem_append_left _ ?_
  rw [List.mem_filter]
  refine ⟨he, ?_⟩
  simp [hnotin]

theorem entityUpsertGo_preserves (ents : List EntityInput) :
    ∀ (table : List EntityRow) (nid : Nat) (ups : List EntityRow),
      (table.map (fun r => r.id)).Nodup → (∀ r ∈ table, r.id < nid) →
      ∀ r ∈ table, ∃ r2 ∈ (entityUpsertGo ents table nid ups).1,
        r2.id = r.id ∧ r2.entityTypeId = r.entityTypeId ∧
          r2.entityId = r.entityId := by
  induction ents with
  | nil => intro table nid ups _ _ r hr; exact ⟨r, hr, rfl, rfl, rfl⟩
  | cons e rest ih =>
    intro table nid ups hnd hlt r hr
    cases hfind : table.find? (fun r2 =>
        r2.entityTypeId == e.entityTypeId && r2.entityId == e.entityId) with
    | some r0 =>
      simp only [entityUpsertGo, hfind]
      have hr0 := List.mem_of_find?_eq_some hfind
      have hids : (table.map (fun r2 => if r2.id = r0.id
          then applyEntityUpdate e r0 else r2)).map (fun r2 => r2.id) =
            table.map (fun r2 => r2.id) := by
        rw [List.map_map]
        refine List.map_congr_left ?_
        intro r2 hr2
        simp only [Function.comp_apply]
        by_cases h3 : r2.id = r0.id
        · rw [if_pos h3]
          exact h3.symm
        · rw [if_neg h3]
      have hnd2 : ((table.map (fun r2 => if r2.id = r0.id
          then applyEntityUpdate e r0 else r2)).map (fun r2 => r2.id)).Nodup := by
        rw [hids]; exact hnd
      have hlt2 : ∀ r2 ∈ table.map (fun r2 => if r2.id = r0.id
          then applyEntityUpdate e r0 else r2), r2.id < nid := by
        intro r2 hr2
        rcases List.mem_map.1 hr2 with ⟨r3, hr3, rfl⟩
        by_cases h3 : r3.id = r0.id
        · rw [if_pos h3]
          exact hlt r0 hr0
        · rw [if_neg h3]
          exact hlt r3 hr3
      by_cases h3 : r.id = r0.id
      · have hreq : r = r0 := List.inj_on_of_nodup_map hnd hr hr0 h3
        obtain ⟨r2, hr2, h21, h22, h23⟩ := ih _ nid
          (ups ++ [applyEntityUpdate e r0]) hnd2 hlt2 (applyEntityUpdate e r0)
          (List.mem_map.2 ⟨r, hr, by rw [if_pos h3]⟩)
        refine ⟨r2, hr2, ?_, ?_, ?_⟩
        · rw [h21, hreq]
          rfl
        · rw [h22, hreq]
          rfl
        · rw [h23, hreq]
          rfl
      · obtain ⟨r2, hr2, h21, h22, h23⟩ := ih _ nid
          (ups ++ [applyEntityUpdate e r0]) hnd2 hlt2 r
          (List.mem_map.2 ⟨r, hr, by rw [if_neg h3]⟩)
        exact ⟨r2, hr2, h21, h22, h23⟩
    | none =>
      simp only [entityUpsertGo, hfind]
      have hnd2 : ((table ++ [newEntityRow e nid]).map
          (fun r2 => r2.id)).Nodup := by
        rw [List.map_append]
        rw [List.nodup_append]
        refine ⟨hnd, by simp, ?_⟩
        intro x hx
        rcases List.mem_map.1 hx with ⟨r3, hr3, rfl⟩
        simp only [List.map_cons, List.map_nil, List.mem_singleton,
          newEntityRow]
        intro hcontr
        exact absurd hcontr (Nat.ne_of_lt (hlt r3 hr3))
      have hlt2 : ∀ r2 ∈ table ++ [newEntityRow e nid], r2.id < nid + 1 := by
        intro r2 hr2
        rcases List.mem_append.1 hr2 with hr3 | hr3
        · exact Nat.lt_succ_of_lt (hlt r2 hr3)
        · simp only [List.mem_singleton] at hr3
          rw [hr3]
          exact Nat.lt_succ_self nid
      obtain ⟨r2, hr2, hs⟩ := ih _ (nid + 1) (ups ++ [newEntityRow e nid])
        hnd2 hlt2 r (List.mem_append_left _ hr)
      exact ⟨r2, hr2, hs⟩

/-- C3 (amended): a partial sync (non-empty instance list) that completes
never deletes an Entity row — every prior row persists with its surrogate
id and `(entity_type, entity_id)` key — and the only EntityRelationship rows
it may delete are those whose sub-entity is among `original_entity_ids`,
the entity rows of everything in the (fetch-extended) `model_objs_by_ctype`:
the requested instances plus the super entities fetched during the pass.
(The scope is not limited to the original request set; see the
counterexample.)  The database is assumed well-formed: distinct surrogate
ids below the auto-increment counter. -/
theorem partial_sync_frame (registry : Registry) (db : Db)
    (modelObjs : List (Nat × MObj)) (res : SyncResult)
    (hne : modelObjs ≠ [])
    (hnd : (db.entities.map (fun r => r.id)).Nodup)
    (hfresh : ∀ r ∈ db.entities, r.id < db.nextEntityId)
    (h : syncRun registry db modelObjs = Except.ok res) :
    (∀ r ∈ db.entities, ∃ r2 ∈ res.db.entities,
      r2.id = r.id ∧ r2.entityTypeId = r.entityTypeId ∧
        r2.entityId = r.entityId) ∧
    (∀ e ∈ db.relationships, e ∉ res.db.relationships →
      e.1 ∈ res.originalEntityIds) := by
  have hsync : modelObjs.isEmpty = false := by
    cases modelObjs with
    | nil => exact absurd rfl hne
    | cons a b => rfl
  simp only [syncRun, hsync, Bool.false_eq_true, if_false] at h
  split at h
  next e heq1 => exact Except.noConfusion h
  next supersByCtype idsToSync heq1 =>
    split at h
    next e heq2 => exact Except.noConfusion h
    next map2 byCtype2 heq2 =>
      split at h
      next e heq3 => exact Except.noConfusion h
      next modelObjsToSync heq3 =>
        split at h
        next e heq4 => exact Except.noConfusion h
        next kindTuples heq4 =>
          split at h
          next e heq5 => exact Except.noConfusion h
          next entitiesToUpsert heq5 =>
            rw [Except.ok.injEq] at h
            subst h
            constructor
            · intro r hr
              rw [upsertEntityRelationships_entities_frame,
                upsertEntities_partial_entities,
                (upsertEntityKinds_frame db _).1,
                (upsertEntityKinds_frame db _).2.2]
              exact entityUpsertGo_preserves entitiesToUpsert db.entities
                db.nextEntityId [] hnd hfresh r hr
            · intro e he hne2
              refine upsertEntityRelationships_deleted _ _ _ e ?_ hne2
              rw [upsertEntities_relationships_frame,
                (upsertEntityKinds_frame db _).2.1]
              exact he

/-- Witness for C3 (amended): on the concrete partial sync of the account,
the prior account entity row (id 100) survives the pass. -/
theorem partial_sync_frame_witness :
    ∃ r2 ∈ c3Res.db.entities, r2.id = 100 := by
  have h := partial_sync_frame demoRegistry c3Db
    [(0, { id := 1, data := 0 })] c3Res (by simp) (by decide) (by decide) rfl
  obtain ⟨r2, hr2, hid, _, _⟩ := h.1
    { id := 100, entityTypeId := 0, entityId := 1, entityKindId := 1,
      entityMeta := none, displayName := "a", isActive := true }
    (by decide)
  exact ⟨r2, hr2, hid⟩

end DjangoEntity
